import Mathlib

/-!
Verification of the procedural player-generation and persistence engine of
the ASBL_Game repository (`src/modules/player_generator.py`), as a shallow
embedding in Lean 4.

Modelling conventions:
* Python machine integers are `Nat`/`Int` (no overflow is possible in this
  program's ranges).
* Python floats that carry probability draws or the Box–Muller output are
  modelled as exact rationals `ℚ`; Python's `round` (banker's rounding,
  round-half-to-even) is modelled by `roundHalfEven` below.
* Randomness is modelled nondeterministically: every call of
  `random.randint(a, b)` consumes an arbitrary natural draw `d` and yields
  `a + d % (b - a + 1)` (always inside `[a, b]`, like the source call);
  `random.random()` draws are arbitrary rationals; `random.choice(l)`
  consumes a draw `d` and picks index `d % l.length`.  Theorems quantify
  over all draw sequences.
* Dictionaries with a fixed key set are represented positionally
  (lists indexed in the key-list order) or as total functions from an
  enumerated key type.
* The MySQL store is modelled as an auto-increment table (`Store`).
-/

/-- `DEFAULT_AGE = 18` from the source constants. -/
def DEFAULT_AGE : Nat := 18

/-- `STAT_MIN = 1` from the source constants. -/
def STAT_MIN : Nat := 1

/-- `STAT_MAX = 99` from the source constants. -/
def STAT_MAX : Nat := 99

/-- The seven overall grades `["G","C","B","A","S","SS","SSR"]`,
as an enumerated type (the source uses the strings as dict keys). -/
inductive Grade
  | G | C | B | A | S | SS | SSR
deriving DecidableEq, Inhabited, Repr

/-- `OVERALL_GRADES` list, in source order. -/
def OVERALL_GRADES : List Grade := [.G, .C, .B, .A, .S, .SS, .SSR]

/-- One entry of `GRADE_RULES`: per-grade sum range and per-stat range. -/
structure Rule where
  sum_min : Nat
  sum_max : Nat
  stat_min : Nat
  stat_max : Nat
deriving DecidableEq, Repr

/-- `GRADE_RULES` dict from the source, keyed by grade. -/
def GRADE_RULES : Grade → Rule
  | .G   => ⟨10,  400, 10, 60⟩
  | .C   => ⟨399, 600, 20, 70⟩
  | .B   => ⟨599, 700, 30, 70⟩
  | .A   => ⟨699, 800, 40, 75⟩
  | .S   => ⟨799, 900, 50, 80⟩
  | .SS  => ⟨900, 950, 60, 99⟩
  | .SSR => ⟨951, 990, 91, 99⟩

/-- `GRADE_FACTOR` dict from the source (float literals read as exact
rationals): salary multiplier per grade. -/
def GRADE_FACTOR : Grade → ℚ
  | .G   => 1
  | .C   => 11/10
  | .B   => 13/10
  | .A   => 16/10
  | .S   => 2
  | .SS  => 25/10
  | .SSR => 3

/-- The twenty stat keys of `STAT_KEYS`, as an enumerated type
(the source uses the snake_case strings as dict keys). -/
inductive StatKey
  | ath_stamina | ath_strength | ath_speed | ath_jump
  | shot_touch | shot_release | shot_accuracy | shot_range
  | def_rebound | def_boxout | def_contest | def_disrupt
  | off_move | off_dribble | off_pass | off_handle
  | talent_offiq | talent_defiq | talent_health | talent_luck
deriving DecidableEq, Inhabited, Repr

/-- `STAT_KEYS` list, in source order. -/
def STAT_KEYS : List StatKey :=
  [.ath_stamina, .ath_strength, .ath_speed, .ath_jump,
   .shot_touch, .shot_release, .shot_accuracy, .shot_range,
   .def_rebound, .def_boxout, .def_contest, .def_disrupt,
   .off_move, .off_dribble, .off_pass, .off_handle,
   .talent_offiq, .talent_defiq, .talent_health, .talent_luck]

/-- `UNTRAINABLE_KEYS` list (10 keys), in source order. -/
def UNTRAINABLE_KEYS : List StatKey :=
  [.ath_stamina, .ath_strength, .ath_speed, .ath_jump,
   .shot_touch, .shot_release,
   .talent_offiq, .talent_defiq, .talent_health, .talent_luck]

/-- `TRAINABLE_KEYS` list (10 keys), in source order. -/
def TRAINABLE_KEYS : List StatKey :=
  [.shot_accuracy, .shot_range,
   .def_rebound, .def_boxout, .def_contest, .def_disrupt,
   .off_move, .off_dribble, .off_pass, .off_handle]

/-- Model of `random.randint(a, b)`: an arbitrary draw `d` is normalised
into `[a, b]` (the source call returns a uniform value of that range). -/
def randint (a b d : Nat) : Nat := a + d % (b - a + 1)

/-- `rand_stat()`: one stat value in `[STAT_MIN, STAT_MAX]`. -/
def rand_stat (d : Nat) : Nat := randint STAT_MIN STAT_MAX d

/-- Python's `round` on a real value: round half to even
(banker's rounding), on exact rationals. -/
def roundHalfEven (q : ℚ) : ℤ :=
  if Int.fract q < 1/2 then ⌊q⌋
  else if 1/2 < Int.fract q then ⌊q⌋ + 1
  else if ⌊q⌋ % 2 = 0 then ⌊q⌋ else ⌊q⌋ + 1

/-- `compute_untrainable_sum`: sums the stats over `UNTRAINABLE_KEYS`.
The allocator's dict over those ten keys is represented positionally,
so the sum over the keys is the sum of the list. -/
def compute_untrainable_sum (stats : List Nat) : Nat := stats.sum

/-- `pick_target_sum(rule)`: `random.randint(sum_min, sum_max)`. -/
def pick_target_sum (rule : Rule) (d : Nat) : Nat :=
  randint rule.sum_min rule.sum_max d

/-- The loop's candidate list: `[k for k in keys_for_dist if capacity[k] > 0]`
(indices with remaining headroom, in key order). -/
def allocCand (stats capacity : List Nat) : List Nat :=
  (List.range stats.length).filter (fun j => 0 < capacity.getD j 0)

/-- The loop's `random.choice(candidates)`: index draw `d1` normalised. -/
def allocK (stats capacity : List Nat) (d1 : Nat) : Nat :=
  (allocCand stats capacity).getD (d1 % (allocCand stats capacity).length) 0

/-- The loop's `step = min(remaining, capacity[k], random.randint(1, 3))`. -/
def allocStepSize (remaining : Nat) (capacity : List Nat) (k d2 : Nat) : Nat :=
  min remaining (min (capacity.getD k 0) (randint 1 3 d2))

/-- The `while remaining > 0` distribution loop of
`generate_untrainable_by_grade`.  Each iteration picks a candidate index
with positive capacity (`random.choice`), and a step
`min(remaining, capacity[k], random.randint(1, 3))`.  `ds i` supplies the
pair of draws of iteration `i`.  A fuel argument (initially equal to
`remaining`) makes the recursion structural: each iteration decreases
`remaining` by `step ≥ 1`, so fuel never runs out before `remaining = 0`. -/
def allocLoop (ds : Nat → Nat × Nat) :
    Nat → Nat → List Nat → List Nat → Nat → List Nat
  | 0, _, stats, _, _ => stats
  | fuel + 1, remaining, stats, capacity, i =>
    if remaining = 0 then stats
    else if (allocCand stats capacity).isEmpty then stats
    else
      let k := allocK stats capacity (ds i).1
      let step := allocStepSize remaining capacity k (ds i).2
      allocLoop ds fuel (remaining - step)
        (stats.set k (stats.getD k 0 + step))
        (capacity.set k (capacity.getD k 0 - step)) (i + 1)

/-- The "too low" post-correction loop of `generate_untrainable_by_grade`:
walk the stats in key order, raising each by `min(stat_max - stat, short)`
until the shortfall is gone. -/
def raiseShort (stat_max : Nat) : List Nat → Nat → List Nat
  | [], _ => []
  | s :: rest, short =>
    if short = 0 then s :: rest
    else
      let add := min (stat_max - s) short
      (s + add) :: raiseShort stat_max rest (short - add)

/-- The "too high" post-correction loop of `generate_untrainable_by_grade`:
walk the stats in key order, lowering each by `min(stat - stat_min, over)`
until the overshoot is gone. -/
def lowerOver (stat_min : Nat) : List Nat → Nat → List Nat
  | [], _ => []
  | s :: rest, over =>
    if over = 0 then s :: rest
    else
      let sub := min (s - stat_min) over
      (s - sub) :: lowerOver stat_min rest (over - sub)

/-- `generate_untrainable_by_grade(grade)`: the tier-constrained
allocator.  The ten untrainable stats (dict over `UNTRAINABLE_KEYS`,
represented positionally) start at the tier's `stat_min` (the source's
`k == "age"` branch is dead: `"age"` is not in `UNTRAINABLE_KEYS`), a
target sum is drawn inside the tier's sum range, the distribution loop
steers the sum toward the target, and the post-correction loops clamp the
sum back toward the range.  `dTarget` is the target-sum draw, `ds` the
loop's draw stream. -/
def untrainableFloor (rule : Rule) : List Nat :=
  List.replicate UNTRAINABLE_KEYS.length rule.stat_min

/-- The allocator state after the distribution loop: starts from the floor
stats, with `capacity = stat_max - stat` per key and
`remaining = target_sum - current_sum`. -/
def untrainableAfterLoop (rule : Rule) (dTarget : Nat)
    (ds : Nat → Nat × Nat) : List Nat :=
  allocLoop ds
    (pick_target_sum rule dTarget -
      compute_untrainable_sum (untrainableFloor rule))
    (pick_target_sum rule dTarget -
      compute_untrainable_sum (untrainableFloor rule))
    (untrainableFloor rule)
    ((untrainableFloor rule).map (fun s => rule.stat_max - s)) 0

def generate_untrainable_by_grade (grade : Grade) (dTarget : Nat)
    (ds : Nat → Nat × Nat) : List Nat :=
  -- rule = GRADE_RULES[grade]; every stat starts at the tier's stat_min
  -- (untrainableFloor); early return when current_sum >= target_sum;
  -- otherwise run the distribution loop (untrainableAfterLoop) and then
  -- the two post-correction passes on the final sum
  if pick_target_sum (GRADE_RULES grade) dTarget ≤
      compute_untrainable_sum (untrainableFloor (GRADE_RULES grade)) then
    untrainableFloor (GRADE_RULES grade)
  else if compute_untrainable_sum
      (untrainableAfterLoop (GRADE_RULES grade) dTarget ds) <
      (GRADE_RULES grade).sum_min then
    raiseShort (GRADE_RULES grade).stat_max
      (untrainableAfterLoop (GRADE_RULES grade) dTarget ds)
      ((GRADE_RULES grade).sum_min - compute_untrainable_sum
        (untrainableAfterLoop (GRADE_RULES grade) dTarget ds))
  else if (GRADE_RULES grade).sum_max < compute_untrainable_sum
      (untrainableAfterLoop (GRADE_RULES grade) dTarget ds) then
    lowerOver (GRADE_RULES grade).stat_min
      (untrainableAfterLoop (GRADE_RULES grade) dTarget ds)
      (compute_untrainable_sum
        (untrainableAfterLoop (GRADE_RULES grade) dTarget ds) -
        (GRADE_RULES grade).sum_max)
  else untrainableAfterLoop (GRADE_RULES grade) dTarget ds

/-- `build_untrainable_stats(overall_grade)`: alias for the allocator. -/
def build_untrainable_stats (overall_grade : Grade) (dTarget : Nat)
    (ds : Nat → Nat × Nat) : List Nat :=
  generate_untrainable_by_grade overall_grade dTarget ds

example : compute_untrainable_sum (generate_untrainable_by_grade .G 0 (fun _ => (0, 0))) = 100 := by decide
example : compute_untrainable_sum (generate_untrainable_by_grade .SSR 0 (fun _ => (0, 0))) = 951 := by decide

/-! ### List helper lemmas for the allocator proofs -/

lemma getD_set_eq (l : List Nat) (k v : Nat) (hk : k < l.length) :
    (l.set k v).getD k 0 = v := by
  rw [List.getD_eq_getElem _ 0 (by simpa using hk)]
  simp [hk]

lemma getD_set_ne (l : List Nat) (k j v : Nat) (h : j ≠ k) :
    (l.set k v).getD j 0 = l.getD j 0 := by
  induction l generalizing k j with
  | nil => simp [List.set]
  | cons a t ih =>
    cases k with
    | zero =>
      cases j with
      | zero => exact absurd rfl h
      | succ j => rw [List.set_cons_zero, List.getD_cons_succ, List.getD_cons_succ]
    | succ k =>
      cases j with
      | zero => rw [List.set_cons_succ, List.getD_cons_zero, List.getD_cons_zero]
      | succ j =>
        rw [List.set_cons_succ, List.getD_cons_succ, List.getD_cons_succ]
        exact ih k j (by omega)

lemma sum_set_add (l : List Nat) (k step : Nat) (hk : k < l.length) :
    (l.set k (l.getD k 0 + step)).sum = l.sum + step := by
  induction l generalizing k with
  | nil => simp at hk
  | cons a t ih =>
    cases k with
    | zero =>
      rw [List.getD_cons_zero, List.set_cons_zero, List.sum_cons, List.sum_cons]
      omega
    | succ k =>
      have hk' : k < t.length := by simpa using hk
      rw [List.getD_cons_succ, List.set_cons_succ, List.sum_cons, List.sum_cons,
        ih k hk']
      omega

lemma getD_mem (l : List Nat) (i : Nat) (h : i < l.length) :
    l.getD i 0 ∈ l := by
  rw [List.getD_eq_getElem l 0 h]
  exact List.getElem_mem h

lemma mem_getD (l : List Nat) (x : Nat) (h : x ∈ l) :
    ∃ i, i < l.length ∧ l.getD i 0 = x := by
  obtain ⟨i, hi, rfl⟩ := List.mem_iff_getElem.mp h
  exact ⟨i, hi, by rw [List.getD_eq_getElem l 0 hi]⟩

lemma sum_eq_of_getD (l : List Nat) (M : Nat)
    (h : ∀ j, j < l.length → l.getD j 0 = M) : l.sum = l.length * M := by
  induction l with
  | nil => simp
  | cons a t ih =>
    have h0 := h 0 (by simp)
    rw [List.getD_cons_zero] at h0
    have ht : ∀ j, j < t.length → t.getD j 0 = M := by
      intro j hj
      have := h (j + 1) (by simpa using Nat.succ_lt_succ hj)
      rwa [List.getD_cons_succ] at this
    rw [List.sum_cons, h0, ih ht, List.length_cons]
    ring

lemma randint_bounds (a b d : Nat) (h : a ≤ b) :
    a ≤ randint a b d ∧ randint a b d ≤ b := by
  unfold randint
  have : d % (b - a + 1) < b - a + 1 := Nat.mod_lt _ (by omega)
  omega

/-! ### Equation lemmas for the distribution loop -/

lemma allocLoop_rem_zero (ds : Nat → Nat × Nat) (fuel : Nat)
    (stats capacity : List Nat) (i : Nat) :
    allocLoop ds (fuel + 1) 0 stats capacity i = stats := by
  rw [allocLoop]
  simp

lemma allocLoop_empty (ds : Nat → Nat × Nat) (fuel remaining : Nat)
    (stats capacity : List Nat) (i : Nat) (hr : remaining ≠ 0)
    (he : (allocCand stats capacity).isEmpty) :
    allocLoop ds (fuel + 1) remaining stats capacity i = stats := by
  rw [allocLoop, if_neg hr, if_pos he]

lemma allocLoop_step (ds : Nat → Nat × Nat) (fuel remaining : Nat)
    (stats capacity : List Nat) (i : Nat) (hr : remaining ≠ 0)
    (he : ¬ (allocCand stats capacity).isEmpty) :
    allocLoop ds (fuel + 1) remaining stats capacity i =
      allocLoop ds fuel
        (remaining - allocStepSize remaining capacity
          (allocK stats capacity (ds i).1) (ds i).2)
        (stats.set (allocK stats capacity (ds i).1)
          (stats.getD (allocK stats capacity (ds i).1) 0 +
            allocStepSize remaining capacity
              (allocK stats capacity (ds i).1) (ds i).2))
        (capacity.set (allocK stats capacity (ds i).1)
          (capacity.getD (allocK stats capacity (ds i).1) 0 -
            allocStepSize remaining capacity
              (allocK stats capacity (ds i).1) (ds i).2)) (i + 1) := by
  rw [allocLoop, if_neg hr, if_neg he]

lemma allocLoop_fuel_zero (ds : Nat → Nat × Nat) (remaining : Nat)
    (stats capacity : List Nat) (i : Nat) :
    allocLoop ds 0 remaining stats capacity i = stats := rfl

/-! ### The allocator's distribution loop invariant -/

/-- Invariant of the `while remaining > 0` loop: lengths are preserved,
every stat stays in `[m, M]` (where `capacity[j] = M - stats[j]` pointwise
at entry), and the final sum accounts exactly for the consumed budget —
with leftover budget `r'` only possible when every stat has been pushed to
the ceiling `M`. -/
lemma allocLoop_spec (ds : Nat → Nat × Nat) (M m : Nat) :
    ∀ (fuel remaining : Nat) (stats capacity : List Nat) (i : Nat),
      remaining ≤ fuel →
      stats.length = capacity.length →
      (∀ j, j < stats.length → stats.getD j 0 + capacity.getD j 0 = M) →
      (∀ j, j < stats.length → m ≤ stats.getD j 0) →
      (allocLoop ds fuel remaining stats capacity i).length = stats.length ∧
      (∀ j, j < stats.length →
        m ≤ (allocLoop ds fuel remaining stats capacity i).getD j 0 ∧
        (allocLoop ds fuel remaining stats capacity i).getD j 0 ≤ M) ∧
      ∃ r', r' ≤ remaining ∧
        (allocLoop ds fuel remaining stats capacity i).sum + r' =
          stats.sum + remaining ∧
        (r' = 0 ∨ ∀ j, j < stats.length →
          (allocLoop ds fuel remaining stats capacity i).getD j 0 = M) := by
  intro fuel
  induction fuel with
  | zero =>
    intro remaining stats capacity i hrf hlen hpt hm
    have hr0 : remaining = 0 := by omega
    subst hr0
    rw [allocLoop_fuel_zero]
    refine ⟨rfl, ?_, 0, le_refl _, rfl, Or.inl rfl⟩
    intro j hj
    exact ⟨hm j hj, by have := hpt j hj; omega⟩
  | succ fuel ih =>
    intro remaining stats capacity i hrf hlen hpt hm
    by_cases hr : remaining = 0
    · subst hr
      rw [allocLoop_rem_zero]
      refine ⟨rfl, ?_, 0, le_refl _, rfl, Or.inl rfl⟩
      intro j hj
      exact ⟨hm j hj, by have := hpt j hj; omega⟩
    · by_cases hempty : (allocCand stats capacity).isEmpty
      · rw [allocLoop_empty ds fuel remaining stats capacity i hr hempty]
        have hnil : allocCand stats capacity = [] :=
          List.isEmpty_iff.mp hempty
        have hcapz : ∀ j, j < stats.length → capacity.getD j 0 = 0 := by
          intro j hj
          have := (List.filter_eq_nil_iff.mp hnil) j (List.mem_range.mpr hj)
          simpa using this
        refine ⟨rfl, ?_, remaining, le_refl _, rfl, Or.inr ?_⟩
        · intro j hj
          exact ⟨hm j hj, by have := hpt j hj; omega⟩
        · intro j hj
          have h1 := hpt j hj
          have h2 := hcapz j hj
          omega
      · -- one distribution step
        have hlpos : 0 < (allocCand stats capacity).length := by
          rcases Nat.eq_zero_or_pos (allocCand stats capacity).length with h0 | h0
          · exact absurd
              (List.isEmpty_iff.mpr (List.eq_nil_of_length_eq_zero h0)) hempty
          · exact h0
        set k := allocK stats capacity (ds i).1 with hkdef
        set step := allocStepSize remaining capacity k (ds i).2 with hstepdef
        have hkmem : k ∈ allocCand stats capacity := by
          rw [hkdef]
          exact getD_mem _ _ (Nat.mod_lt _ hlpos)
        have hk : k < stats.length ∧ 0 < capacity.getD k 0 := by
          have h1 := List.mem_range.mp
            (List.mem_of_mem_filter (p := fun j => 0 < capacity.getD j 0) hkmem)
          have h2 := List.of_mem_filter (p := fun j => 0 < capacity.getD j 0) hkmem
          rw [decide_eq_true_eq] at h2
          exact ⟨h1, h2⟩
        have hrand := randint_bounds 1 3 (ds i).2 (by omega)
        have hstep1 : 1 ≤ step := by
          rw [hstepdef]
          unfold allocStepSize
          have h2 := hk.2
          omega
        have hsteprem : step ≤ remaining := by
          rw [hstepdef]; unfold allocStepSize; omega
        have hstepcap : step ≤ capacity.getD k 0 := by
          rw [hstepdef]; unfold allocStepSize; omega
        rw [allocLoop_step ds fuel remaining stats capacity i hr hempty,
          ← hkdef, ← hstepdef]
        have hklen : k < capacity.length := by rw [← hlen]; exact hk.1
        have hlen' : (stats.set k (stats.getD k 0 + step)).length =
            (capacity.set k (capacity.getD k 0 - step)).length := by
          rw [List.length_set, List.length_set]; exact hlen
        have hsetlen : (stats.set k (stats.getD k 0 + step)).length =
            stats.length := List.length_set _ _ _
        have hpt' : ∀ j, j < (stats.set k (stats.getD k 0 + step)).length →
            (stats.set k (stats.getD k 0 + step)).getD j 0 +
            (capacity.set k (capacity.getD k 0 - step)).getD j 0 = M := by
          intro j hj
          rw [hsetlen] at hj
          by_cases hjk : j = k
          · subst hjk
            rw [getD_set_eq _ _ _ hj, getD_set_eq _ _ _ (by omega)]
            have := hpt k hj
            omega
          · rw [getD_set_ne _ _ _ _ hjk, getD_set_ne _ _ _ _ hjk]
            exact hpt j hj
        have hm' : ∀ j, j < (stats.set k (stats.getD k 0 + step)).length →
            m ≤ (stats.set k (stats.getD k 0 + step)).getD j 0 := by
          intro j hj
          rw [hsetlen] at hj
          by_cases hjk : j = k
          · subst hjk
            rw [getD_set_eq _ _ _ hj]
            have := hm k hj
            omega
          · rw [getD_set_ne _ _ _ _ hjk]
            exact hm j hj
        obtain ⟨ihlen, ihbounds, r', hr'le, ihsum, ihexit⟩ :=
          ih (remaining - step) (stats.set k (stats.getD k 0 + step))
            (capacity.set k (capacity.getD k 0 - step)) (i + 1)
            (by omega) hlen' hpt' hm'
        have hsetsum : (stats.set k (stats.getD k 0 + step)).sum =
            stats.sum + step := sum_set_add stats k step hk.1
        refine ⟨by rw [ihlen, hsetlen], ?_, r', by omega, ?_, ?_⟩
        · intro j hj
          exact ihbounds j (by rw [hsetlen]; exact hj)
        · rw [ihsum, hsetsum]
          omega
        · rcases ihexit with h0 | hM
          · exact Or.inl h0
          · refine Or.inr (fun j hj => hM j ?_)
            rw [hsetlen]
            exact hj

lemma getD_replicate (n a j : Nat) (h : j < n) :
    (List.replicate n a).getD j 0 = a := by
  rw [List.getD_eq_getElem _ 0 (by simpa using h)]
  simp

lemma untrainableFloor_length (rule : Rule) :
    (untrainableFloor rule).length = 10 := by
  simp [untrainableFloor, UNTRAINABLE_KEYS]

lemma untrainableFloor_sum (rule : Rule) :
    (untrainableFloor rule).sum = 10 * rule.stat_min := by
  have h : untrainableFloor rule = List.replicate 10 rule.stat_min := rfl
  rw [h, List.sum_replicate, smul_eq_mul]

/-- Full specification of the allocator for any grade of `GRADE_RULES`:
result has ten entries, each in the tier's `[stat_min, stat_max]`, and the
total lies in the tier's `[sum_min, sum_max]` (the post-correction
branches are in fact never entered with this configuration). -/
lemma generate_untrainable_spec (grade : Grade) (dT : Nat)
    (ds : Nat → Nat × Nat) :
    (generate_untrainable_by_grade grade dT ds).length = 10 ∧
    (∀ j, j < 10 →
      (GRADE_RULES grade).stat_min ≤
        (generate_untrainable_by_grade grade dT ds).getD j 0 ∧
      (generate_untrainable_by_grade grade dT ds).getD j 0 ≤
        (GRADE_RULES grade).stat_max) ∧
    (GRADE_RULES grade).sum_min ≤
      (generate_untrainable_by_grade grade dT ds).sum ∧
    (generate_untrainable_by_grade grade dT ds).sum ≤
      (GRADE_RULES grade).sum_max := by
  have h1 : (GRADE_RULES grade).stat_min ≤ (GRADE_RULES grade).stat_max := by
    cases grade <;> decide
  have h2 : (GRADE_RULES grade).sum_min ≤ (GRADE_RULES grade).sum_max := by
    cases grade <;> decide
  have h3 : 10 * (GRADE_RULES grade).stat_min ≤ (GRADE_RULES grade).sum_max := by
    cases grade <;> decide
  have h4 : (GRADE_RULES grade).sum_min ≤ 10 * (GRADE_RULES grade).stat_max := by
    cases grade <;> decide
  have htgt : (GRADE_RULES grade).sum_min ≤
      pick_target_sum (GRADE_RULES grade) dT ∧
      pick_target_sum (GRADE_RULES grade) dT ≤ (GRADE_RULES grade).sum_max := by
    unfold pick_target_sum
    exact randint_bounds _ _ _ h2
  have hfsum : compute_untrainable_sum (untrainableFloor (GRADE_RULES grade)) =
      10 * (GRADE_RULES grade).stat_min := untrainableFloor_sum _
  by_cases hcase : pick_target_sum (GRADE_RULES grade) dT ≤
      compute_untrainable_sum (untrainableFloor (GRADE_RULES grade))
  · -- early return: the floor values
    have hres : generate_untrainable_by_grade grade dT ds =
        untrainableFloor (GRADE_RULES grade) := by
      unfold generate_untrainable_by_grade
      rw [if_pos hcase]
    rw [hres]
    refine ⟨untrainableFloor_length _, ?_, ?_, ?_⟩
    · intro j hj
      rw [show (untrainableFloor (GRADE_RULES grade)).getD j 0 =
          (GRADE_RULES grade).stat_min from
        getD_replicate _ _ _ (by simpa [UNTRAINABLE_KEYS] using hj)]
      exact ⟨le_refl _, h1⟩
    · rw [show (untrainableFloor (GRADE_RULES grade)).sum =
        10 * (GRADE_RULES grade).stat_min from untrainableFloor_sum _]
      omega
    · rw [show (untrainableFloor (GRADE_RULES grade)).sum =
        10 * (GRADE_RULES grade).stat_min from untrainableFloor_sum _]
      omega
  · -- main path: distribution loop, and both correction branches are dead
    have hlow : 10 * (GRADE_RULES grade).stat_min <
        pick_target_sum (GRADE_RULES grade) dT := by omega
    obtain ⟨hLlen, hLbounds, r', hr'le, hLsum, hLexit⟩ :=
      allocLoop_spec ds (GRADE_RULES grade).stat_max
        (GRADE_RULES grade).stat_min
        (pick_target_sum (GRADE_RULES grade) dT -
          compute_untrainable_sum (untrainableFloor (GRADE_RULES grade)))
        (pick_target_sum (GRADE_RULES grade) dT -
          compute_untrainable_sum (untrainableFloor (GRADE_RULES grade)))
        (untrainableFloor (GRADE_RULES grade))
        ((untrainableFloor (GRADE_RULES grade)).map
          (fun s => (GRADE_RULES grade).stat_max - s)) 0
        (le_refl _)
        (by rw [List.length_map])
        (by
          intro j hj
          rw [untrainableFloor_length] at hj
          rw [show (untrainableFloor (GRADE_RULES grade)).getD j 0 =
              (GRADE_RULES grade).stat_min from
            getD_replicate _ _ _ (by simpa [UNTRAINABLE_KEYS] using hj)]
          rw [show ((untrainableFloor (GRADE_RULES grade)).map
              (fun s => (GRADE_RULES grade).stat_max - s)).getD j 0 =
              (GRADE_RULES grade).stat_max - (GRADE_RULES grade).stat_min from by
            rw [show (untrainableFloor (GRADE_RULES grade)).map
                (fun s => (GRADE_RULES grade).stat_max - s) =
                List.replicate UNTRAINABLE_KEYS.length
                  ((GRADE_RULES grade).stat_max -
                    (GRADE_RULES grade).stat_min) from by
              rw [untrainableFloor, List.map_replicate]]
            exact getD_replicate _ _ _ (by simpa [UNTRAINABLE_KEYS] using hj)]
          omega)
        (by
          intro j hj
          rw [untrainableFloor_length] at hj
          rw [show (untrainableFloor (GRADE_RULES grade)).getD j 0 =
              (GRADE_RULES grade).stat_min from
            getD_replicate _ _ _ (by simpa [UNTRAINABLE_KEYS] using hj)])
    rw [← untrainableAfterLoop] at hLlen hLbounds hLsum hLexit
    rw [untrainableFloor_length] at hLlen
    have hLs : compute_untrainable_sum
        (untrainableAfterLoop (GRADE_RULES grade) dT ds) =
        (untrainableAfterLoop (GRADE_RULES grade) dT ds).sum := rfl
    have hsum_hi : (untrainableAfterLoop (GRADE_RULES grade) dT ds).sum ≤
        (GRADE_RULES grade).sum_max := by
      rw [untrainableFloor_sum] at hLsum
      omega
    have hsum_lo : (GRADE_RULES grade).sum_min ≤
        (untrainableAfterLoop (GRADE_RULES grade) dT ds).sum := by
      rcases hLexit with h0 | hM
      · rw [untrainableFloor_sum] at hLsum
        omega
      · have : (untrainableAfterLoop (GRADE_RULES grade) dT ds).sum =
            10 * (GRADE_RULES grade).stat_max := by
          rw [sum_eq_of_getD _ _ (by
            intro j hj
            rw [hLlen] at hj
            exact hM j (by rw [untrainableFloor_length]; exact hj)), hLlen]
        omega
    have hres : generate_untrainable_by_grade grade dT ds =
        untrainableAfterLoop (GRADE_RULES grade) dT ds := by
      unfold generate_untrainable_by_grade
      rw [if_neg hcase, if_neg (by omega), if_neg (by omega)]
    rw [hres]
    refine ⟨hLlen, ?_, hsum_lo, hsum_hi⟩
    intro j hj
    exact hLbounds j (by rw [untrainableFloor_length]; exact hj)

/-! ### Name synthesis, height, position, grade -/

/-- Model of `random.choice(l)` on a string list: index draw `d`
normalised by the list length (empty list yields `""`; the source call
would raise, and is only reached with non-empty pools). -/
def choiceStr (l : List String) (d : Nat) : String :=
  l.getD (d % l.length) ""

/-- `generate_player_name(first_names, last_names, last_snippets_source)`:
`'First Last'`, with the short-last-name touch-up: when the drawn last
name has length ≤ 1 and the coin draw `random.random()` exceeds `0.5`, a
snippet of length < 3 (drawn from `last_snippets_source`, defaulting to
`last_names`; the `isinstance(s, str)` filter is vacuous here) is
appended to the last name.  `d1, d2` are the two choice draws, `coin` the
`random.random()` draw, `d3` the snippet choice draw. -/
def generate_player_name (first_names last_names : List String)
    (snippets? : Option (List String)) (d1 d2 : Nat) (coin : ℚ)
    (d3 : Nat) : String :=
  let first := choiceStr first_names d1
  let last := choiceStr last_names d2
  if 1 < last.length then first ++ " " ++ last
  else if 1/2 < coin then
    let candidates := (snippets?.getD last_names).filter
      (fun s => s.length < 3)
    if candidates.isEmpty then first ++ " " ++ last
    else first ++ " " ++ (last ++ choiceStr candidates d3)
  else first ++ " " ++ last

/-- `generate_random_height_with_dice(mean=195, std_dev=10,
min_height=160, max_height=230)`.  The Box–Muller value
`height = mean + z * std_dev` is a transcendental function of the two
uniform draws; it is modelled as an arbitrary rational candidate (first
component of each pair), since all downstream behaviour depends only on
the acceptance guard `min_height <= height <= max_height`.  The second
component is the `random.randint(0, 10)` dice draw.  The rejection loop
retries until a candidate is accepted (`none` models the diverging run
that never draws an acceptable value). -/
def generate_random_height_with_dice (min_height max_height : Nat) :
    List (ℚ × Nat) → Option ℤ
  | [] => none
  | (height, d) :: rest =>
    if (min_height : ℚ) ≤ height ∧ height ≤ (max_height : ℚ) then
      some (min (roundHalfEven height + (randint 0 10 d : ℤ))
        (max_height : ℤ))
    else generate_random_height_with_dice min_height max_height rest

/-- `POSITIONS` list from the source. -/
def POSITIONS : List String := ["PG", "SG", "SF", "PF", "C"]

/-- `pick_position(height_cm)`: bucket the height and compare one uniform
draw `r` against the bucket's cumulative thresholds. -/
def pick_position (height_cm : ℤ) (r : ℚ) : String :=
  if height_cm < 190 then
    if r < 60/100 then "PG" else "SG"
  else if height_cm < 200 then
    if r < 35/100 then "PG"
    else if r < 80/100 then "SG"
    else "SF"
  else if height_cm < 210 then
    if r < 5/100 then "PG"
    else if r < 15/100 then "SG"
    else if r < 35/100 then "SF"
    else if r < 85/100 then "PF"
    else "C"
  else
    if r < 5/100 then "PG"
    else if r < 15/100 then "SG"
    else if r < 25/100 then "SF"
    else if r < 55/100 then "PF"
    else "C"

/-- `pick_overall_grade()`:
`random.choices(OVERALL_GRADES, weights=OVERALL_GRADE_WEIGHTS, k=1)[0]`.
CPython draws one uniform `r` in `[0, 1)` and bisects the cumulative
weights `[0.28, 0.54, 0.76, 0.90, 0.97, 0.995, 1.0]`; the result is the
first grade whose cumulative weight exceeds `r` (the last grade
otherwise). -/
def pick_overall_grade (r : ℚ) : Grade :=
  if r < 28/100 then .G
  else if r < 54/100 then .C
  else if r < 76/100 then .B
  else if r < 90/100 then .A
  else if r < 97/100 then .S
  else if r < 995/1000 then .SS
  else .SSR

/-! ### Record assembly -/

/-- The merged stats dict `{**stats_untrainable, **stats_trainable}` of
`generate_player`, as a total function on the twenty keys: untrainable
keys read the allocator's positional output, trainable keys read the
`rand_stat()` list (both in their key-list order). -/
def statsOfLists (unt tra : List Nat) : StatKey → Nat
  | .ath_stamina => unt.getD 0 0
  | .ath_strength => unt.getD 1 0
  | .ath_speed => unt.getD 2 0
  | .ath_jump => unt.getD 3 0
  | .shot_touch => unt.getD 4 0
  | .shot_release => unt.getD 5 0
  | .talent_offiq => unt.getD 6 0
  | .talent_defiq => unt.getD 7 0
  | .talent_health => unt.getD 8 0
  | .talent_luck => unt.getD 9 0
  | .shot_accuracy => tra.getD 0 0
  | .shot_range => tra.getD 1 0
  | .def_rebound => tra.getD 2 0
  | .def_boxout => tra.getD 3 0
  | .def_contest => tra.getD 4 0
  | .def_disrupt => tra.getD 5 0
  | .off_move => tra.getD 6 0
  | .off_dribble => tra.getD 7 0
  | .off_pass => tra.getD 8 0
  | .off_handle => tra.getD 9 0

/-- One generated player dict (the `created_at` wall-clock string is not
modelled; no analysed property depends on it). -/
structure PlayerRecord where
  user_id : ℤ
  player_name : String
  age : Nat
  height_cm : ℤ
  position : String
  stats : StatKey → Nat
  untrainable_sum : Nat
  overall_grade : Grade
  training_points : Nat
  start_salary : ℤ
deriving Inhabited

/-- `compute_start_salary(player)`:
`int(round(total_abilities * factor))`, where `total_abilities` sums the
twenty `STAT_KEYS` entries (all present on a generated record) and
`factor = GRADE_FACTOR.get(grade.upper(), 1.0)` — on a generated record
the grade is always one of the seven keys, so the lookup never falls back
to the default. -/
def compute_start_salary (stats : StatKey → Nat) (grade : Grade) : ℤ :=
  roundHalfEven (((STAT_KEYS.map stats).sum : ℚ) * GRADE_FACTOR grade)

/-- The random draws consumed by one `generate_player` call, one field
per random-source use, in source call order. -/
structure GenDraws where
  nameFirst : Nat
  nameLast : Nat
  nameCoin : ℚ
  nameSnippet : Nat
  heightCands : List (ℚ × Nat)
  posR : ℚ
  gradeR : ℚ
  targetD : Nat
  allocDs : Nat → Nat × Nat
  trainDs : Nat → Nat
deriving Inhabited

/-- `generate_player(user_id, first_names, last_names)`: assembles one
complete record — name, height (may diverge: `none`), position, grade,
tier-constrained untrainable stats, uniform trainable stats, metadata,
and finally the start salary computed from the assembled record. -/
def generate_player (user_id : ℤ) (first_names last_names : List String)
    (g : GenDraws) : Option PlayerRecord :=
  let name := generate_player_name first_names last_names none
    g.nameFirst g.nameLast g.nameCoin g.nameSnippet
  match generate_random_height_with_dice 160 230 g.heightCands with
  | none => none
  | some height_cm =>
    let position := pick_position height_cm g.posR
    let overall_grade := pick_overall_grade g.gradeR
    let stats_untrainable :=
      build_untrainable_stats overall_grade g.targetD g.allocDs
    let untrainable_sum := compute_untrainable_sum stats_untrainable
    let stats_trainable := (List.range 10).map (fun i => rand_stat (g.trainDs i))
    let stats := statsOfLists stats_untrainable stats_trainable
    some {
      user_id := user_id
      player_name := name
      age := DEFAULT_AGE
      height_cm := height_cm
      position := position
      stats := stats
      untrainable_sum := untrainable_sum
      overall_grade := overall_grade
      training_points := 0
      start_salary := compute_start_salary stats overall_grade }

/-! ### Persistence -/

/-- The MySQL `players_basic` table, modelled as an auto-increment store:
`nextId` is the next `AUTO_INCREMENT` value, `rows` the inserted records
in insertion order. -/
structure Store where
  nextId : ℤ
  rows : List PlayerRecord
deriving Inhabited

/-- `insert_player_to_db(conn, p)`: single-row insert returning
`cur.lastrowid` (the store-assigned identity). -/
def insert_player_to_db (st : Store) (p : PlayerRecord) : ℤ × Store :=
  (st.nextId, { nextId := st.nextId + 1, rows := st.rows ++ [p] })

/-- What a bulk insert may hand back: a list of assigned identities, or
just an affected-row count (`generate_and_persist` dispatches on
`isinstance(new_ids, list)`). -/
inductive BulkResult
  | ids : List ℤ → BulkResult
  | count : ℤ → BulkResult
deriving DecidableEq, Repr

/-- `bulk_insert_players(conn, players)`: the repository's bulk insert.
An empty batch returns `0` without touching the store; otherwise all rows
are inserted with one `executemany` and the function returns
`len(players)` — a row count, never an identity list. -/
def bulk_insert_players (st : Store) (players : List PlayerRecord) :
    BulkResult × Store :=
  if players.isEmpty then (.count 0, st)
  else (.count players.length,
    { nextId := st.nextId + players.length, rows := st.rows ++ players })

/-- Modelled from the spec: the `RecordStore` collaborator's
`insertMany(records) → identities-list` variant (§6 of the spec); no
implementation under `src/` returns identities (only the affected-count
variant `bulk_insert_players` exists there), so this models the spec's
alternative store, assigning consecutive identities in insertion order. -/
def insertManyReturningIds (st : Store) (players : List PlayerRecord) :
    BulkResult × Store :=
  (.ids ((List.range players.length).map (fun j => st.nextId + j)),
    { nextId := st.nextId + players.length, rows := st.rows ++ players })

/-- `load_name_texts()`: read the two name tables, keep truthy texts, and
raise (`Except.error`) when either resulting list is empty.  The DB rows
are inputs here (`firstRows`, `lastRows`); Python's truthiness filter
`if r.get("text")` keeps exactly the non-empty strings. -/
def load_name_texts (firstRows lastRows : List String) :
    Except String (List String × List String) :=
  let first_names := firstRows.filter (fun s => s ≠ "")
  let last_names := lastRows.filter (fun s => s ≠ "")
  if first_names.isEmpty then
    .error "players_first_name empty"
  else if last_names.isEmpty then
    .error "players_last_name empty"
  else .ok (first_names, last_names)

/-- The identity/preview reconciliation of `generate_and_persist`'s bulk
branch: walk the returned identities and assign each to the earliest
preview slot that has no `player_id` yet (the source's monotone `pv_idx`
scan; a preview entry is a record paired with `none` while the
`player_id` key is absent). -/
def assignIds : List (PlayerRecord × Option ℤ) → List ℤ →
    List (PlayerRecord × Option ℤ)
  | pv, [] => pv
  | [], _ => []
  | (p, some j) :: rest, ids => (p, some j) :: assignIds rest ids
  | (p, none) :: rest, pid :: ids => (p, some pid) :: assignIds rest ids

/-- Mutable state of the single-insert loop of `generate_and_persist`. -/
structure LoopState where
  total_inserted : ℤ
  preview : List (PlayerRecord × Option ℤ)
  inserted_ids : List ℤ
  store : Store
deriving Inhabited

/-- The single-insert loop body (`for i in range(count)` with
`insert=False`): generate, insert immediately, record the identity, and
keep the first five records (with their identities) as the preview.
`none` propagates a diverging `generate_player`. -/
def singleGo (uid : ℤ) (fn ln : List String) :
    List GenDraws → Nat → LoopState → Option LoopState
  | [], _, s => some s
  | g :: rest, i, s =>
    match generate_player uid fn ln g with
    | none => none
    | some p =>
      let r := insert_player_to_db s.store p
      singleGo uid fn ln rest (i + 1)
        { total_inserted := s.total_inserted + 1
          preview := if i < 5 then s.preview ++ [(p, some r.1)] else s.preview
          inserted_ids := s.inserted_ids ++ [r.1]
          store := r.2 }

/-- Mutable state of the bulk-insert loop of `generate_and_persist`. -/
structure BulkState where
  batch : List PlayerRecord
  total_inserted : ℤ
  preview : List (PlayerRecord × Option ℤ)
  inserted_ids : List ℤ
  store : Store
deriving Inhabited

/-- One flush of the bulk branch (shared verbatim between the in-loop
flush and the final flush of the source): call the bulk-insert
collaborator, then dispatch on `isinstance(new_ids, list)` — an identity
list extends `inserted_ids` and is reconciled into the preview, a bare
count only bumps `total_inserted`.  The batch is cleared. -/
def flushBatch (flush : Store → List PlayerRecord → BulkResult × Store)
    (s : BulkState) : BulkState :=
  match flush s.store s.batch with
  | (.ids l, st') =>
    { batch := []
      total_inserted := s.total_inserted + l.length
      preview := assignIds s.preview l
      inserted_ids := s.inserted_ids ++ l
      store := st' }
  | (.count n, st') =>
    { batch := []
      total_inserted := s.total_inserted + n
      preview := s.preview
      inserted_ids := s.inserted_ids
      store := st' }

/-- The bulk loop body (`for i in range(count)` with `insert=True`):
generate, keep the first five records in the preview (without identity),
accumulate the batch and flush whenever it reaches `batch_size`; after
the loop, flush the non-empty tail batch.  The source's final
`player_id = None` fill-in is the identity on this representation
(`none` already stands for the absent key). -/
def bulkGo (flush : Store → List PlayerRecord → BulkResult × Store)
    (uid : ℤ) (fn ln : List String) (batch_size : Nat) :
    List GenDraws → Nat → BulkState → Option BulkState
  | [], _, s => some (if s.batch.isEmpty then s else flushBatch flush s)
  | g :: rest, i, s =>
    match generate_player uid fn ln g with
    | none => none
    | some p =>
      let s' : BulkState :=
        { s with
          preview := if i < 5 then s.preview ++ [(p, none)] else s.preview
          batch := s.batch ++ [p] }
      bulkGo flush uid fn ln batch_size rest (i + 1)
        (if batch_size ≤ s'.batch.length then flushBatch flush s' else s')

/-- The summary dict returned by `generate_and_persist`.
`inserted_ids = none` models the key being absent. -/
structure Summary where
  total_generated : Nat
  total_inserted : ℤ
  preview : List (PlayerRecord × Option ℤ)
  inserted_ids : Option (List ℤ)
  mode : String
deriving Inhabited

/-- `generate_and_persist(count, user_id, insert=..., batch_size=...,
first_names=..., last_names=...)`, parameterised by the bulk-insert
collaborator `flush`.  When either name pool is not injected, both are
loaded via `load_name_texts` (pool rows `firstRows`/`lastRows`), whose
error propagates before any generation.  `gs` is the per-record draw
stream, `st` the store.  `Except.error` models the configuration error;
`.ok none` models a diverging run; a persistence failure raises in Python
and is not modelled (the store collaborators here always succeed). -/
def generate_and_persist_with
    (flush : Store → List PlayerRecord → BulkResult × Store)
    (count : Nat) (user_id : ℤ) (insert : Bool) (batch_size : Nat)
    (firstRows lastRows : List String)
    (first_names? last_names? : Option (List String))
    (gs : Nat → GenDraws) (st : Store) :
    Except String (Option (Summary × Store)) :=
  match
    (if first_names?.isNone || last_names?.isNone then
      load_name_texts firstRows lastRows
    else .ok (first_names?.getD [], last_names?.getD [])) with
  | .error e => .error e
  | .ok pools =>
    if insert then
      match bulkGo flush user_id pools.1 pools.2 batch_size
        ((List.range count).map gs) 0
        ⟨[], 0, [], [], st⟩ with
      | none => .ok none
      | some s => .ok (some (
          { total_generated := count
            total_inserted := s.total_inserted
            preview := s.preview
            inserted_ids :=
              if s.inserted_ids.isEmpty then none else some s.inserted_ids
            mode := "bulk_insert" }, s.store))
    else
      match singleGo user_id pools.1 pools.2
        ((List.range count).map gs) 0 ⟨0, [], [], st⟩ with
      | none => .ok none
      | some s => .ok (some (
          { total_generated := count
            total_inserted := s.total_inserted
            preview := s.preview
            inserted_ids := some s.inserted_ids
            mode := "single_insert" }, s.store))

/-- The repository's `generate_and_persist`: the bulk collaborator is the
module's own `bulk_insert_players` (which returns a row count). -/
def generate_and_persist (count : Nat) (user_id : ℤ) (insert : Bool)
    (batch_size : Nat) (firstRows lastRows : List String)
    (first_names? last_names? : Option (List String))
    (gs : Nat → GenDraws) (st : Store) :
    Except String (Option (Summary × Store)) :=
  generate_and_persist_with bulk_insert_players count user_id insert
    batch_size firstRows lastRows first_names? last_names? gs st

/-! ### Supporting lemmas for the generated-record theorems -/

lemma le_roundHalfEven (n : ℤ) (q : ℚ) (h : (n : ℚ) ≤ q) :
    n ≤ roundHalfEven q := by
  have hfl : n ≤ ⌊q⌋ := Int.le_floor.mpr h
  unfold roundHalfEven
  split_ifs <;> omega

lemma roundHalfEven_le (q : ℚ) (n : ℤ) (h : q ≤ (n : ℚ)) :
    roundHalfEven q ≤ n := by
  have hfl : ⌊q⌋ ≤ n := by
    have := Int.floor_le_floor h
    rwa [Int.floor_intCast] at this
  have hfr : Int.fract q = q - (⌊q⌋ : ℚ) := rfl
  have hkey : 1/2 ≤ Int.fract q → ⌊q⌋ + 1 ≤ n := by
    intro hge
    rw [hfr] at hge
    have h2 : (⌊q⌋ : ℚ) < (n : ℚ) := by linarith
    exact Int.add_one_le_iff.mpr (by exact_mod_cast h2)
  unfold roundHalfEven
  split_ifs with hlt hgt heven
  · exact hfl
  · exact hkey (le_of_lt hgt)
  · exact hfl
  · exact hkey (le_of_not_lt hlt)

lemma rand_stat_bounds (d : Nat) : 1 ≤ rand_stat d ∧ rand_stat d ≤ 99 :=
  randint_bounds 1 99 d (by omega)

lemma getD_map_range (f : Nat → Nat) (n j : Nat) (h : j < n) :
    ((List.range n).map f).getD j 0 = f j := by
  rw [List.getD_eq_getElem _ 0 (by simpa using h)]
  simp

/-- The record assembled by `generate_player` once the height rejection
loop accepts `hcm` (the `some` branch of the match). -/
def playerOf (user_id : ℤ) (first_names last_names : List String)
    (g : GenDraws) (hcm : ℤ) : PlayerRecord :=
  { user_id := user_id
    player_name := generate_player_name first_names last_names none
      g.nameFirst g.nameLast g.nameCoin g.nameSnippet
    age := DEFAULT_AGE
    height_cm := hcm
    position := pick_position hcm g.posR
    overall_grade := pick_overall_grade g.gradeR
    stats := statsOfLists
      (build_untrainable_stats (pick_overall_grade g.gradeR) g.targetD
        g.allocDs)
      ((List.range 10).map (fun i => rand_stat (g.trainDs i)))
    untrainable_sum := compute_untrainable_sum
      (build_untrainable_stats (pick_overall_grade g.gradeR) g.targetD
        g.allocDs)
    training_points := 0
    start_salary := compute_start_salary
      (statsOfLists
        (build_untrainable_stats (pick_overall_grade g.gradeR) g.targetD
          g.allocDs)
        ((List.range 10).map (fun i => rand_stat (g.trainDs i))))
      (pick_overall_grade g.gradeR) }

lemma generate_player_none (uid : ℤ) (fn ln : List String) (g : GenDraws)
    (hh : generate_random_height_with_dice 160 230 g.heightCands = none) :
    generate_player uid fn ln g = none := by
  unfold generate_player
  rw [hh]

lemma generate_player_some (uid : ℤ) (fn ln : List String) (g : GenDraws)
    (hcm : ℤ)
    (hh : generate_random_height_with_dice 160 230 g.heightCands =
      some hcm) :
    generate_player uid fn ln g = some (playerOf uid fn ln g hcm) := by
  unfold generate_player
  rw [hh]
  rfl

lemma generate_player_inv (uid : ℤ) (fn ln : List String) (g : GenDraws)
    (p : PlayerRecord) (h : generate_player uid fn ln g = some p) :
    ∃ hcm : ℤ,
      generate_random_height_with_dice 160 230 g.heightCands = some hcm ∧
      p = playerOf uid fn ln g hcm := by
  cases hh : generate_random_height_with_dice 160 230 g.heightCands with
  | none =>
    rw [generate_player_none uid fn ln g hh] at h
    exact absurd h (by simp)
  | some hcm =>
    rw [generate_player_some uid fn ln g hcm hh] at h
    exact ⟨hcm, rfl, (Option.some.injEq _ _ ▸ h).symm⟩

/-! ### Witness fixtures: one concrete draw bundle and its record -/

/-- A concrete draw bundle: name draws 0, one height candidate `195` with
dice 0, all probability draws 0, target draw 0, allocator draws all 0. -/
def wDraws : GenDraws :=
  { nameFirst := 0, nameLast := 0, nameCoin := 0, nameSnippet := 0,
    heightCands := [(195, 0)], posR := 0, gradeR := 0, targetD := 0,
    allocDs := fun _ => (0, 0), trainDs := fun _ => 0 }

/-- The record generated from `wDraws` with pools `["A"]`, `["B"]`. -/
def wRecord : PlayerRecord :=
  (generate_player 1 ["A"] ["B"] wDraws).getD default

lemma wRecord_eq : generate_player 1 ["A"] ["B"] wDraws = some wRecord :=
  rfl

/-! ### Claim theorems -/

/-- C1: for every tier and every sequence of random draws, the
`untrainable_sum` of the allocator's output (the sum of the ten
untrainable stats) lies within that tier's configured
`[sum_min, sum_max]`.  With the repository's `GRADE_RULES` this holds
unconditionally — the floor-values escape hatch of the claim is never
needed, since every tier's floor sum stays below its target range and
every tier's ceiling covers `sum_min`. -/
theorem untrainable_sum_within_grade_range (grade : Grade) (dT : Nat)
    (ds : Nat → Nat × Nat) :
    (GRADE_RULES grade).sum_min ≤
      compute_untrainable_sum (generate_untrainable_by_grade grade dT ds) ∧
    compute_untrainable_sum (generate_untrainable_by_grade grade dT ds) ≤
      (GRADE_RULES grade).sum_max := by
  obtain ⟨-, -, hlo, hhi⟩ := generate_untrainable_spec grade dT ds
  exact ⟨hlo, hhi⟩

/-- C2: every one of the ten untrainable stat values returned by the
allocator lies within the tier's `[stat_min, stat_max]`, and every one of
the twenty stats of every generated record lies in `[1, 99]`. -/
theorem generated_stats_within_bounds :
    (∀ (grade : Grade) (dT : Nat) (ds : Nat → Nat × Nat) (x : Nat),
      x ∈ generate_untrainable_by_grade grade dT ds →
      (GRADE_RULES grade).stat_min ≤ x ∧
        x ≤ (GRADE_RULES grade).stat_max) ∧
    (∀ (uid : ℤ) (fn ln : List String) (g : GenDraws) (p : PlayerRecord),
      generate_player uid fn ln g = some p →
      ∀ k : StatKey, 1 ≤ p.stats k ∧ p.stats k ≤ 99) := by
  constructor
  · intro grade dT ds x hx
    obtain ⟨hlen, hbnds, -, -⟩ := generate_untrainable_spec grade dT ds
    obtain ⟨j, hj, hjx⟩ := mem_getD _ _ hx
    rw [hlen] at hj
    rw [← hjx]
    exact hbnds j hj
  · intro uid fn ln g p h k
    obtain ⟨hcm, -, hp⟩ := generate_player_inv uid fn ln g p h
    subst hp
    obtain ⟨hlen, hbnds, -, -⟩ := generate_untrainable_spec
      (pick_overall_grade g.gradeR) g.targetD g.allocDs
    have hgr : 1 ≤ (GRADE_RULES (pick_overall_grade g.gradeR)).stat_min ∧
        (GRADE_RULES (pick_overall_grade g.gradeR)).stat_max ≤ 99 := by
      cases (pick_overall_grade g.gradeR) <;> decide
    have hunt : ∀ j, j < 10 →
        1 ≤ (generate_untrainable_by_grade (pick_overall_grade g.gradeR)
          g.targetD g.allocDs).getD j 0 ∧
        (generate_untrainable_by_grade (pick_overall_grade g.gradeR)
          g.targetD g.allocDs).getD j 0 ≤ 99 := by
      intro j hj
      have := hbnds j hj
      omega
    have htra : ∀ j, j < 10 →
        1 ≤ ((List.range 10).map (fun i => rand_stat (g.trainDs i))).getD j 0 ∧
        ((List.range 10).map (fun i => rand_stat (g.trainDs i))).getD j 0 ≤
          99 := by
      intro j hj
      rw [getD_map_range _ _ _ hj]
      exact rand_stat_bounds (g.trainDs j)
    cases k with
    | ath_stamina => exact hunt 0 (by omega)
    | ath_strength => exact hunt 1 (by omega)
    | ath_speed => exact hunt 2 (by omega)
    | ath_jump => exact hunt 3 (by omega)
    | shot_touch => exact hunt 4 (by omega)
    | shot_release => exact hunt 5 (by omega)
    | talent_offiq => exact hunt 6 (by omega)
    | talent_defiq => exact hunt 7 (by omega)
    | talent_health => exact hunt 8 (by omega)
    | talent_luck => exact hunt 9 (by omega)
    | shot_accuracy => exact htra 0 (by omega)
    | shot_range => exact htra 1 (by omega)
    | def_rebound => exact htra 2 (by omega)
    | def_boxout => exact htra 3 (by omega)
    | def_contest => exact htra 4 (by omega)
    | def_disrupt => exact htra 5 (by omega)
    | off_move => exact htra 6 (by omega)
    | off_dribble => exact htra 7 (by omega)
    | off_pass => exact htra 8 (by omega)
    | off_handle => exact htra 9 (by omega)

/-- Witness for C2 at concrete inputs: the value `10` drawn from the
G-tier allocator run, and the concrete record `wRecord`. -/
theorem generated_stats_within_bounds_witness :
    ((GRADE_RULES Grade.G).stat_min ≤ 10 ∧
      10 ≤ (GRADE_RULES Grade.G).stat_max) ∧
    (∀ k : StatKey, 1 ≤ wRecord.stats k ∧ wRecord.stats k ≤ 99) :=
  ⟨generated_stats_within_bounds.1 Grade.G 0 (fun _ => (0, 0)) 10
      (by decide),
    generated_stats_within_bounds.2 1 ["A"] ["B"] wDraws wRecord
      wRecord_eq⟩

/-- C3: for every generated record, `start_salary` equals
`round(sum of the twenty stats × tier_factor[overall_grade])` exactly
(floats as exact rationals, Python `round` as round-half-to-even), the
computation being a pure function of the assembled record; and
`GRADE_FACTOR` is a fixed ascending table from `1.0` (lowest tier) to
`3.0` (top tier). -/
theorem start_salary_formula :
    (∀ (uid : ℤ) (fn ln : List String) (g : GenDraws) (p : PlayerRecord),
      generate_player uid fn ln g = some p →
      p.start_salary = roundHalfEven
        (((STAT_KEYS.map p.stats).sum : ℚ) *
          GRADE_FACTOR p.overall_grade)) ∧
    GRADE_FACTOR .G = 1 ∧ GRADE_FACTOR .G < GRADE_FACTOR .C ∧
    GRADE_FACTOR .C < GRADE_FACTOR .B ∧ GRADE_FACTOR .B < GRADE_FACTOR .A ∧
    GRADE_FACTOR .A < GRADE_FACTOR .S ∧ GRADE_FACTOR .S < GRADE_FACTOR .SS ∧
    GRADE_FACTOR .SS < GRADE_FACTOR .SSR ∧ GRADE_FACTOR .SSR = 3 := by
  refine ⟨?_, by norm_num [GRADE_FACTOR], by norm_num [GRADE_FACTOR],
    by norm_num [GRADE_FACTOR], by norm_num [GRADE_FACTOR],
    by norm_num [GRADE_FACTOR], by norm_num [GRADE_FACTOR],
    by norm_num [GRADE_FACTOR], by norm_num [GRADE_FACTOR]⟩
  intro uid fn ln g p h
  obtain ⟨hcm, -, hp⟩ := generate_player_inv uid fn ln g p h
  subst hp
  rfl

/-- Witness for C3: the formula instantiated on the concrete generated
record `wRecord`, the generation hypothesis discharged by `rfl`. -/
theorem start_salary_formula_witness :
    wRecord.start_salary = roundHalfEven
      (((STAT_KEYS.map wRecord.stats).sum : ℚ) *
        GRADE_FACTOR wRecord.overall_grade) :=
  start_salary_formula.1 1 ["A"] ["B"] wDraws wRecord wRecord_eq

/-! ### Height and position claims -/

lemma grhwd_accept (mn mx : Nat) (b : ℚ) (d : Nat) (rest : List (ℚ × Nat))
    (h1 : (mn : ℚ) ≤ b) (h2 : b ≤ (mx : ℚ)) :
    generate_random_height_with_dice mn mx ((b, d) :: rest) =
      some (min (roundHalfEven b + (randint 0 10 d : ℤ)) (mx : ℤ)) := by
  unfold generate_random_height_with_dice
  rw [if_pos ⟨h1, h2⟩]

lemma grhwd_reject (mn mx : Nat) (b : ℚ) (d : Nat) (rest : List (ℚ × Nat))
    (h : ¬ ((mn : ℚ) ≤ b ∧ b ≤ (mx : ℚ))) :
    generate_random_height_with_dice mn mx ((b, d) :: rest) =
      generate_random_height_with_dice mn mx rest := by
  conv_lhs => unfold generate_random_height_with_dice
  rw [if_neg h]

/-- C7: every accepted height is an integer in `[160, 230]`: a candidate
base draw is consumed only when it lies inside `[160, 230]` (otherwise
the draw is discarded and the loop retries on the rest of the stream); on
acceptance the dice jitter lies in `[0, 10]`, the rounded base plus
jitter is clamped to `230` from above, and the lower bound needs no clamp
because the rounded accepted base is already `≥ 160`. -/
theorem height_within_bounds :
    (∀ (cands : List (ℚ × Nat)) (h : ℤ),
      generate_random_height_with_dice 160 230 cands = some h →
      160 ≤ h ∧ h ≤ 230) ∧
    (∀ (b : ℚ) (d : Nat) (rest : List (ℚ × Nat)),
      ¬ ((160 : ℚ) ≤ b ∧ b ≤ 230) →
      generate_random_height_with_dice 160 230 ((b, d) :: rest) =
        generate_random_height_with_dice 160 230 rest) ∧
    (∀ (b : ℚ) (d : Nat) (rest : List (ℚ × Nat)),
      (160 : ℚ) ≤ b → b ≤ 230 →
      generate_random_height_with_dice 160 230 ((b, d) :: rest) =
        some (min (roundHalfEven b + (randint 0 10 d : ℤ)) 230) ∧
      randint 0 10 d ≤ 10 ∧
      160 ≤ roundHalfEven b ∧ roundHalfEven b ≤ 230) := by
  have hcast160 : ((160 : Nat) : ℚ) = (160 : ℚ) := by norm_num
  have hcast230 : ((230 : Nat) : ℚ) = (230 : ℚ) := by norm_num
  refine ⟨?_, ?_, ?_⟩
  · intro cands
    induction cands with
    | nil => intro h hx; exact absurd hx (by simp [generate_random_height_with_dice])
    | cons hd rest ih =>
      intro h hx
      obtain ⟨b, d⟩ := hd
      by_cases hacc : (160 : ℚ) ≤ b ∧ b ≤ 230
      · rw [grhwd_accept 160 230 b d rest (by rw [hcast160]; exact hacc.1)
          (by rw [hcast230]; exact hacc.2)] at hx
        have hj : (0 : ℤ) ≤ (randint 0 10 d : ℤ) := by positivity
        have hlo : (160 : ℤ) ≤ roundHalfEven b :=
          le_roundHalfEven 160 b (by push_cast; exact hacc.1)
        have hx' : h = min (roundHalfEven b + (randint 0 10 d : ℤ))
            ((230 : Nat) : ℤ) := by
          exact (Option.some.injEq _ _ ▸ hx).symm
        rw [hx']
        constructor
        · apply le_min
          · omega
          · norm_num
        · exact (min_le_right _ _).trans (by norm_num)
      · rw [grhwd_reject 160 230 b d rest
          (by rw [hcast160, hcast230]; exact hacc)] at hx
        exact ih h hx
  · intro b d rest hng
    exact grhwd_reject 160 230 b d rest (by rw [hcast160, hcast230]; exact hng)
  · intro b d rest h1 h2
    refine ⟨?_, ?_, ?_, ?_⟩
    · have := grhwd_accept 160 230 b d rest (by rw [hcast160]; exact h1)
        (by rw [hcast230]; exact h2)
      rw [this]
      norm_num
    · have := randint_bounds 0 10 d (by omega)
      omega
    · exact le_roundHalfEven 160 b (by push_cast; exact h1)
    · exact roundHalfEven_le b 230 (by push_cast; exact h2)

/-- The concrete accepted height for the C7 witness: the first candidate
`195` is accepted and dice draw `3` is added. -/
def wHeight : ℤ :=
  (generate_random_height_with_dice 160 230 [(195, 3)]).getD 0

/-- Witness for C7 at the concrete candidate stream `[(195, 3)]`: the
bounds theorem applied to the accepted result, and the acceptance-branch
characterisation at base `195`, dice `3`. -/
theorem height_within_bounds_witness :
    (160 ≤ wHeight ∧ wHeight ≤ 230) ∧
    (generate_random_height_with_dice 160 230 [((195 : ℚ), 3)] =
      some (min (roundHalfEven 195 + (randint 0 10 3 : ℤ)) 230) ∧
    randint 0 10 3 ≤ 10 ∧
    160 ≤ roundHalfEven (195 : ℚ) ∧ roundHalfEven (195 : ℚ) ≤ 230) :=
  ⟨height_within_bounds.1 [((195 : ℚ), 3)] wHeight rfl,
    height_within_bounds.2.2 195 3 [] (by norm_num) (by norm_num)⟩

lemma pick_position_b1 (h : ℤ) (r : ℚ) (hh : h < 190) :
    pick_position h r = if r < 60/100 then "PG" else "SG" := by
  unfold pick_position
  rw [if_pos hh]

lemma pick_position_b2 (h : ℤ) (r : ℚ) (hh1 : ¬ h < 190) (hh2 : h < 200) :
    pick_position h r =
      if r < 35/100 then "PG" else if r < 80/100 then "SG" else "SF" := by
  unfold pick_position
  rw [if_neg hh1, if_pos hh2]

lemma pick_position_b3 (h : ℤ) (r : ℚ) (hh1 : ¬ h < 190) (hh2 : ¬ h < 200)
    (hh3 : h < 210) :
    pick_position h r =
      if r < 5/100 then "PG" else if r < 15/100 then "SG"
      else if r < 35/100 then "SF" else if r < 85/100 then "PF"
      else "C" := by
  unfold pick_position
  rw [if_neg hh1, if_neg hh2, if_pos hh3]

lemma pick_position_b4 (h : ℤ) (r : ℚ) (hh1 : ¬ h < 190) (hh2 : ¬ h < 200)
    (hh3 : ¬ h < 210) :
    pick_position h r =
      if r < 5/100 then "PG" else if r < 15/100 then "SG"
      else if r < 25/100 then "SF" else if r < 55/100 then "PF"
      else "C" := by
  unfold pick_position
  rw [if_neg hh1, if_neg hh2, if_neg hh3]

/-- C8: the assigned position is always one of the five `POSITIONS`, and
each height bucket draws it from its cumulative-probability table:
heights below 190 yield only PG/SG with threshold `0.60`; heights
190–199 only PG/SG/SF with cumulative thresholds `0.35, 0.80`; heights
200–209 any of the five with cumulative `0.05, 0.15, 0.35, 0.85`;
heights ≥ 210 any of the five with cumulative `0.05, 0.15, 0.25, 0.55`. -/
theorem pick_position_bucket_table (h : ℤ) (r : ℚ) :
    pick_position h r ∈ POSITIONS ∧
    (h < 190 →
      (pick_position h r = "PG" ∨ pick_position h r = "SG") ∧
      (pick_position h r = "PG" ↔ r < 60/100)) ∧
    (190 ≤ h → h < 200 →
      (pick_position h r = "PG" ∨ pick_position h r = "SG" ∨
        pick_position h r = "SF") ∧
      (pick_position h r = "PG" ↔ r < 35/100) ∧
      (pick_position h r = "SG" ↔ 35/100 ≤ r ∧ r < 80/100) ∧
      (pick_position h r = "SF" ↔ 80/100 ≤ r)) ∧
    (200 ≤ h → h < 210 →
      (pick_position h r = "PG" ↔ r < 5/100) ∧
      (pick_position h r = "SG" ↔ 5/100 ≤ r ∧ r < 15/100) ∧
      (pick_position h r = "SF" ↔ 15/100 ≤ r ∧ r < 35/100) ∧
      (pick_position h r = "PF" ↔ 35/100 ≤ r ∧ r < 85/100) ∧
      (pick_position h r = "C" ↔ 85/100 ≤ r)) ∧
    (210 ≤ h →
      (pick_position h r = "PG" ↔ r < 5/100) ∧
      (pick_position h r = "SG" ↔ 5/100 ≤ r ∧ r < 15/100) ∧
      (pick_position h r = "SF" ↔ 15/100 ≤ r ∧ r < 25/100) ∧
      (pick_position h r = "PF" ↔ 25/100 ≤ r ∧ r < 55/100) ∧
      (pick_position h r = "C" ↔ 55/100 ≤ r)) := by
  refine ⟨?_, ?_, ?_, ?_, ?_⟩
  · unfold pick_position POSITIONS
    split_ifs <;> simp
  · intro hh
    rw [pick_position_b1 h r hh]
    by_cases hc : r < 60/100
    · rw [if_pos hc]
      exact ⟨Or.inl rfl, iff_of_true rfl hc⟩
    · rw [if_neg hc]
      exact ⟨Or.inr rfl, iff_of_false (by decide) hc⟩
  · intro hh1 hh2
    rw [pick_position_b2 h r (by omega) hh2]
    by_cases hc1 : r < 35/100
    · rw [if_pos hc1]
      refine ⟨Or.inl rfl, iff_of_true rfl hc1, ?_, ?_⟩
      · exact iff_of_false (by decide) (fun hx => by linarith [hx.1])
      · exact iff_of_false (by decide) (fun hx => by linarith)
    · rw [if_neg hc1]
      by_cases hc2 : r < 80/100
      · rw [if_pos hc2]
        refine ⟨Or.inr (Or.inl rfl), iff_of_false (by decide) hc1, ?_, ?_⟩
        · exact iff_of_true rfl ⟨by linarith [not_lt.mp hc1], hc2⟩
        · exact iff_of_false (by decide) (fun hx => by linarith)
      · rw [if_neg hc2]
        refine ⟨Or.inr (Or.inr rfl), iff_of_false (by decide) hc1, ?_, ?_⟩
        · exact iff_of_false (by decide) (fun hx => by linarith [hx.2])
        · exact iff_of_true rfl (by linarith [not_lt.mp hc2])
  · intro hh1 hh2
    rw [pick_position_b3 h r (by omega) (by omega) hh2]
    by_cases hc1 : r < 5/100
    · rw [if_pos hc1]
      refine ⟨iff_of_true rfl hc1, ?_, ?_, ?_, ?_⟩ <;>
        exact iff_of_false (by decide) (fun hx => by
          first
          | linarith [hx.1]
          | linarith)
    · rw [if_neg hc1]
      by_cases hc2 : r < 15/100
      · rw [if_pos hc2]
        refine ⟨iff_of_false (by decide) hc1,
          iff_of_true rfl ⟨by linarith [not_lt.mp hc1], hc2⟩, ?_, ?_, ?_⟩ <;>
          exact iff_of_false (by decide) (fun hx => by
            first
            | linarith [hx.1]
            | linarith)
      · rw [if_neg hc2]
        by_cases hc3 : r < 35/100
        · rw [if_pos hc3]
          refine ⟨iff_of_false (by decide) hc1,
            iff_of_false (by decide) (fun hx => by linarith [hx.2]),
            iff_of_true rfl ⟨by linarith [not_lt.mp hc2], hc3⟩, ?_, ?_⟩
          · exact iff_of_false (by decide) (fun hx => by linarith [hx.1])
          · exact iff_of_false (by decide) (fun hx => by linarith)
        · rw [if_neg hc3]
          by_cases hc4 : r < 85/100
          · rw [if_pos hc4]
            refine ⟨iff_of_false (by decide) hc1,
              iff_of_false (by decide) (fun hx => by linarith [hx.2]),
              iff_of_false (by decide) (fun hx => by linarith [hx.2]),
              iff_of_true rfl ⟨by linarith [not_lt.mp hc3], hc4⟩,
              iff_of_false (by decide) (fun hx => by linarith)⟩
          · rw [if_neg hc4]
            refine ⟨iff_of_false (by decide) hc1,
              iff_of_false (by decide) (fun hx => by linarith [hx.2]),
              iff_of_false (by decide) (fun hx => by linarith [hx.2]),
              iff_of_false (by decide) (fun hx => by linarith [hx.2]),
              iff_of_true rfl (by linarith [not_lt.mp hc4])⟩
  · intro hh1
    rw [pick_position_b4 h r (by omega) (by omega) (by omega)]
    by_cases hc1 : r < 5/100
    · rw [if_pos hc1]
      refine ⟨iff_of_true rfl hc1, ?_, ?_, ?_, ?_⟩ <;>
        exact iff_of_false (by decide) (fun hx => by
          first
          | linarith [hx.1]
          | linarith)
    · rw [if_neg hc1]
      by_cases hc2 : r < 15/100
      · rw [if_pos hc2]
        refine ⟨iff_of_false (by decide) hc1,
          iff_of_true rfl ⟨by linarith [not_lt.mp hc1], hc2⟩, ?_, ?_, ?_⟩ <;>
          exact iff_of_false (by decide) (fun hx => by
            first
            | linarith [hx.1]
            | linarith)
      · rw [if_neg hc2]
        by_cases hc3 : r < 25/100
        · rw [if_pos hc3]
          refine ⟨iff_of_false (by decide) hc1,
            iff_of_false (by decide) (fun hx => by linarith [hx.2]),
            iff_of_true rfl ⟨by linarith [not_lt.mp hc2], hc3⟩, ?_, ?_⟩
          · exact iff_of_false (by decide) (fun hx => by linarith [hx.1])
          · exact iff_of_false (by decide) (fun hx => by linarith)
        · rw [if_neg hc3]
          by_cases hc4 : r < 55/100
          · rw [if_pos hc4]
            refine ⟨iff_of_false (by decide) hc1,
              iff_of_false (by decide) (fun hx => by linarith [hx.2]),
              iff_of_false (by decide) (fun hx => by linarith [hx.2]),
              iff_of_true rfl ⟨by linarith [not_lt.mp hc3], hc4⟩,
              iff_of_false (by decide) (fun hx => by linarith)⟩
          · rw [if_neg hc4]
            refine ⟨iff_of_false (by decide) hc1,
              iff_of_false (by decide) (fun hx => by linarith [hx.2]),
              iff_of_false (by decide) (fun hx => by linarith [hx.2]),
              iff_of_false (by decide) (fun hx => by linarith [hx.2]),
              iff_of_true rfl (by linarith [not_lt.mp hc4])⟩

/-- Witness for C8 at height `205` (the 200–209 bucket), draw `1/2`:
membership, and the bucket characterisation with both bucket hypotheses
discharged concretely. -/
theorem pick_position_bucket_table_witness :
    pick_position 205 (1/2) ∈ POSITIONS ∧
    ((pick_position 205 (1/2) = "PG" ↔ (1/2 : ℚ) < 5/100) ∧
     (pick_position 205 (1/2) = "SG" ↔
       (5/100 : ℚ) ≤ 1/2 ∧ (1/2 : ℚ) < 15/100) ∧
     (pick_position 205 (1/2) = "SF" ↔
       (15/100 : ℚ) ≤ 1/2 ∧ (1/2 : ℚ) < 35/100) ∧
     (pick_position 205 (1/2) = "PF" ↔
       (35/100 : ℚ) ≤ 1/2 ∧ (1/2 : ℚ) < 85/100) ∧
     (pick_position 205 (1/2) = "C" ↔ (85/100 : ℚ) ≤ 1/2)) :=
  ⟨(pick_position_bucket_table 205 (1/2)).1,
    (pick_position_bucket_table 205 (1/2)).2.2.2.1 (by decide) (by decide)⟩

/-! ### Persistence loop lemmas -/

/-- The state update of one single-insert iteration (generate `p`,
insert, record identity, extend the preview while `i < 5`). -/
def singleStep (p : PlayerRecord) (i : Nat) (s : LoopState) : LoopState :=
  { total_inserted := s.total_inserted + 1
    preview := if i < 5 then
        s.preview ++ [(p, some (insert_player_to_db s.store p).1)]
      else s.preview
    inserted_ids := s.inserted_ids ++ [(insert_player_to_db s.store p).1]
    store := (insert_player_to_db s.store p).2 }

/-- The state update of one bulk iteration (extend preview while `i < 5`,
extend the batch, flush if the batch reached `batch_size`). -/
def bulkStep (flush : Store → List PlayerRecord → BulkResult × Store)
    (bs i : Nat) (p : PlayerRecord) (s : BulkState) : BulkState :=
  let s' : BulkState :=
    { s with
      preview := if i < 5 then s.preview ++ [(p, none)] else s.preview
      batch := s.batch ++ [p] }
  if bs ≤ s'.batch.length then flushBatch flush s' else s'

lemma singleGo_cons_none (uid : ℤ) (fn ln : List String) (g : GenDraws)
    (rest : List GenDraws) (i : Nat) (s : LoopState)
    (hp : generate_player uid fn ln g = none) :
    singleGo uid fn ln (g :: rest) i s = none := by
  unfold singleGo
  rw [hp]

lemma singleGo_cons_some (uid : ℤ) (fn ln : List String) (g : GenDraws)
    (rest : List GenDraws) (i : Nat) (s : LoopState) (p : PlayerRecord)
    (hp : generate_player uid fn ln g = some p) :
    singleGo uid fn ln (g :: rest) i s =
      singleGo uid fn ln rest (i + 1) (singleStep p i s) := by
  show (match generate_player uid fn ln g with
    | none => none
    | some q => singleGo uid fn ln rest (i + 1) (singleStep q i s)) =
    singleGo uid fn ln rest (i + 1) (singleStep p i s)
  rw [hp]

lemma bulkGo_nil (flush : Store → List PlayerRecord → BulkResult × Store)
    (uid : ℤ) (fn ln : List String) (bs : Nat) (i : Nat) (s : BulkState) :
    bulkGo flush uid fn ln bs [] i s =
      some (if s.batch.isEmpty then s else flushBatch flush s) := rfl

lemma bulkGo_cons_none
    (flush : Store → List PlayerRecord → BulkResult × Store)
    (uid : ℤ) (fn ln : List String) (bs : Nat) (g : GenDraws)
    (rest : List GenDraws) (i : Nat) (s : BulkState)
    (hp : generate_player uid fn ln g = none) :
    bulkGo flush uid fn ln bs (g :: rest) i s = none := by
  unfold bulkGo
  rw [hp]

lemma bulkGo_cons_some
    (flush : Store → List PlayerRecord → BulkResult × Store)
    (uid : ℤ) (fn ln : List String) (bs : Nat) (g : GenDraws)
    (rest : List GenDraws) (i : Nat) (s : BulkState) (p : PlayerRecord)
    (hp : generate_player uid fn ln g = some p) :
    bulkGo flush uid fn ln bs (g :: rest) i s =
      bulkGo flush uid fn ln bs rest (i + 1) (bulkStep flush bs i p s) := by
  show (match generate_player uid fn ln g with
    | none => none
    | some q =>
      bulkGo flush uid fn ln bs rest (i + 1) (bulkStep flush bs i q s)) =
    bulkGo flush uid fn ln bs rest (i + 1) (bulkStep flush bs i p s)
  rw [hp]

lemma singleStep_total (p : PlayerRecord) (i : Nat) (s : LoopState) :
    (singleStep p i s).total_inserted = s.total_inserted + 1 := rfl

lemma singleStep_ids_len (p : PlayerRecord) (i : Nat) (s : LoopState) :
    (singleStep p i s).inserted_ids.length = s.inserted_ids.length + 1 := by
  simp [singleStep]

lemma singleStep_preview_len (p : PlayerRecord) (i : Nat) (s : LoopState)
    (h : s.preview.length = min i 5) :
    (singleStep p i s).preview.length = min (i + 1) 5 := by
  by_cases hi : i < 5
  · simp only [singleStep, if_pos hi, List.length_append,
      List.length_cons, List.length_nil]
    omega
  · simp only [singleStep, if_neg hi]
    omega

lemma flushBatch_count_fields (s : BulkState) :
    (flushBatch bulk_insert_players s).batch = [] ∧
    (flushBatch bulk_insert_players s).total_inserted =
      s.total_inserted + s.batch.length ∧
    (flushBatch bulk_insert_players s).preview = s.preview ∧
    (flushBatch bulk_insert_players s).inserted_ids = s.inserted_ids := by
  by_cases hb : s.batch.isEmpty
  · have hlen : s.batch.length = 0 := by
      rw [List.isEmpty_iff] at hb
      simp [hb]
    simp [flushBatch, bulk_insert_players, hb, hlen]
  · simp [flushBatch, bulk_insert_players, hb]

lemma bulkStep_count_fields
    (bs i : Nat) (p : PlayerRecord) (s : BulkState) :
    (bulkStep bulk_insert_players bs i p s).total_inserted +
      ((bulkStep bulk_insert_players bs i p s).batch.length : ℤ) =
      s.total_inserted + s.batch.length + 1 ∧
    (bulkStep bulk_insert_players bs i p s).inserted_ids =
      s.inserted_ids ∧
    (bulkStep bulk_insert_players bs i p s).preview =
      (if i < 5 then s.preview ++ [(p, none)] else s.preview) := by
  unfold bulkStep
  by_cases hc : bs ≤ (s.batch ++ [p]).length
  · simp only [if_pos hc]
    obtain ⟨hb, ht, hpv, hids⟩ := flushBatch_count_fields
      { s with
        preview := if i < 5 then s.preview ++ [(p, none)] else s.preview
        batch := s.batch ++ [p] }
    refine ⟨?_, hids, hpv⟩
    rw [hb, ht]
    dsimp only
    simp only [List.length_nil, List.length_append, List.length_cons]
    push_cast
    ring
  · simp only [if_neg hc]
    refine ⟨?_, by dsimp only, by dsimp only⟩
    dsimp only
    simp only [List.length_append, List.length_cons, List.length_nil]
    push_cast
    ring

lemma singleGo_result (uid : ℤ) (fn ln : List String) :
    ∀ (ds : List GenDraws) (i : Nat) (s s' : LoopState),
      singleGo uid fn ln ds i s = some s' →
      s'.total_inserted = s.total_inserted + ds.length ∧
      s'.inserted_ids.length = s.inserted_ids.length + ds.length ∧
      (s.preview.length = min i 5 →
        s'.preview.length = min (i + ds.length) 5) := by
  intro ds
  induction ds with
  | nil =>
    intro i s s' h
    have hs : s = s' := by simpa [singleGo] using h
    subst hs
    refine ⟨by simp, by simp, fun hp => by simpa using hp⟩
  | cons g rest ih =>
    intro i s s' h
    cases hp : generate_player uid fn ln g with
    | none =>
      rw [singleGo_cons_none uid fn ln g rest i s hp] at h
      exact absurd h (by simp)
    | some p =>
      rw [singleGo_cons_some uid fn ln g rest i s p hp] at h
      obtain ⟨h1, h2, h3⟩ := ih (i + 1) _ s' h
      refine ⟨?_, ?_, ?_⟩
      · rw [h1, singleStep_total]
        simp only [List.length_cons]
        push_cast
        ring
      · rw [h2, singleStep_ids_len]
        simp only [List.length_cons]
        omega
      · intro hpl
        have := h3 (singleStep_preview_len p i s hpl)
        simp only [List.length_cons]
        omega

lemma singleGo_isSome (uid : ℤ) (fn ln : List String) :
    ∀ (ds : List GenDraws) (i : Nat) (s : LoopState),
      (∀ g ∈ ds, (generate_player uid fn ln g).isSome) →
      ∃ s', singleGo uid fn ln ds i s = some s' := by
  intro ds
  induction ds with
  | nil => intro i s _; exact ⟨s, rfl⟩
  | cons g rest ih =>
    intro i s hall
    obtain ⟨p, hp⟩ := Option.isSome_iff_exists.mp (hall g (by simp))
    rw [singleGo_cons_some uid fn ln g rest i s p hp]
    exact ih (i + 1) _ (fun g' hg' => hall g' (by simp [hg']))

lemma bulkGo_count_result (uid : ℤ) (fn ln : List String) (bs : Nat) :
    ∀ (ds : List GenDraws) (i : Nat) (s s' : BulkState),
      bulkGo bulk_insert_players uid fn ln bs ds i s = some s' →
      s'.total_inserted =
        s.total_inserted + s.batch.length + ds.length ∧
      s'.inserted_ids = s.inserted_ids ∧
      (s.preview.length = min i 5 →
        s'.preview.length = min (i + ds.length) 5) ∧
      ((∀ e ∈ s.preview, e.2 = none) → ∀ e ∈ s'.preview, e.2 = none) := by
  intro ds
  induction ds with
  | nil =>
    intro i s s' h
    rw [bulkGo_nil] at h
    have hs' : (if s.batch.isEmpty then s else
        flushBatch bulk_insert_players s) = s' :=
      Option.some.injEq _ _ ▸ h
    by_cases hb : s.batch.isEmpty
    · rw [if_pos hb] at hs'
      subst s'
      have hlen : s.batch.length = 0 := by
        rw [List.isEmpty_iff] at hb
        simp [hb]
      refine ⟨by simp [hlen], rfl, fun hp => by simpa using hp,
        fun hp => hp⟩
    · rw [if_neg hb] at hs'
      subst s'
      obtain ⟨-, ht, hpv, hids⟩ := flushBatch_count_fields s
      refine ⟨by rw [ht]; simp, hids, ?_, ?_⟩
      · intro hp
        rw [hpv]
        simpa using hp
      · intro hp
        rw [hpv]
        exact hp
  | cons g rest ih =>
    intro i s s' h
    cases hp : generate_player uid fn ln g with
    | none =>
      rw [bulkGo_cons_none bulk_insert_players uid fn ln bs g rest i s hp]
        at h
      exact absurd h (by simp)
    | some p =>
      rw [bulkGo_cons_some bulk_insert_players uid fn ln bs g rest i s p hp]
        at h
      obtain ⟨h1, h2, h3, h4⟩ := ih (i + 1) _ s' h
      obtain ⟨ht, hids, hpv⟩ := bulkStep_count_fields bs i p s
      refine ⟨?_, ?_, ?_, ?_⟩
      · rw [h1]
        simp only [List.length_cons]
        push_cast
        omega
      · rw [h2, hids]
      · intro hpl
        have hlen : (bulkStep bulk_insert_players bs i p s).preview.length =
            min (i + 1) 5 := by
          rw [hpv]
          by_cases hi : i < 5
          · simp only [if_pos hi, List.length_append, List.length_cons,
              List.length_nil]
            omega
          · simp only [if_neg hi]
            omega
        have := h3 hlen
        simp only [List.length_cons]
        omega
      · intro hnone
        apply h4
        rw [hpv]
        intro e he
        by_cases hi : i < 5
        · rw [if_pos hi] at he
          rcases List.mem_append.mp he with hh | hh
          · exact hnone e hh
          · simp at hh
            rw [hh]
        · rw [if_neg hi] at he
          exact hnone e he

lemma bulkGo_isSome (flush : Store → List PlayerRecord → BulkResult × Store)
    (uid : ℤ) (fn ln : List String) (bs : Nat) :
    ∀ (ds : List GenDraws) (i : Nat) (s : BulkState),
      (∀ g ∈ ds, (generate_player uid fn ln g).isSome) →
      ∃ s', bulkGo flush uid fn ln bs ds i s = some s' := by
  intro ds
  induction ds with
  | nil => intro i s _; exact ⟨_, bulkGo_nil flush uid fn ln bs i s⟩
  | cons g rest ih =>
    intro i s hall
    obtain ⟨p, hp⟩ := Option.isSome_iff_exists.mp (hall g (by simp))
    rw [bulkGo_cons_some flush uid fn ln bs g rest i s p hp]
    exact ih (i + 1) _ (fun g' hg' => hall g' (by simp [hg']))

/-- With both pools injected, `generate_and_persist_with` skips the DB
load and dispatches on the mode flag. -/
lemma gap_with_injected
    (flush : Store → List PlayerRecord → BulkResult × Store)
    (count : Nat) (uid : ℤ) (insert : Bool) (bs : Nat)
    (fr lr fn ln : List String) (gs : Nat → GenDraws) (st : Store) :
    generate_and_persist_with flush count uid insert bs fr lr
      (some fn) (some ln) gs st =
      if insert then
        (match bulkGo flush uid fn ln bs ((List.range count).map gs) 0
          ⟨[], 0, [], [], st⟩ with
        | none => .ok none
        | some s => .ok (some (
            { total_generated := count
              total_inserted := s.total_inserted
              preview := s.preview
              inserted_ids :=
                if s.inserted_ids.isEmpty then none else some s.inserted_ids
              mode := "bulk_insert" }, s.store)))
      else
        (match singleGo uid fn ln ((List.range count).map gs) 0
          ⟨0, [], [], st⟩ with
        | none => .ok none
        | some s => .ok (some (
            { total_generated := count
              total_inserted := s.total_inserted
              preview := s.preview
              inserted_ids := some s.inserted_ids
              mode := "single_insert" }, s.store))) := rfl

lemma mem_range_map_isSome (uid : ℤ) (fn ln : List String)
    (gs : Nat → GenDraws) (count : Nat)
    (hall : ∀ i, (generate_player uid fn ln (gs i)).isSome) :
    ∀ g ∈ (List.range count).map gs,
      (generate_player uid fn ln g).isSome := by
  intro g hg
  obtain ⟨i, -, rfl⟩ := List.mem_map.mp hg
  exact hall i

/-- C4: for every count and either mode (store collaborators modelled as
always succeeding, matching the claim's "returns without a persistence
failure" premise), the summary has `total_generated = count`,
`total_inserted = count`, a preview of exactly `min(count, 5)` entries,
and in single mode an `inserted_ids` list of exactly `count` entries —
in particular count 0 yields zero totals and an empty preview. -/
theorem generate_and_persist_totals (count : Nat) (uid : ℤ)
    (insert : Bool) (bs : Nat) (fr lr fn ln : List String)
    (gs : Nat → GenDraws) (st : Store)
    (hall : ∀ i, (generate_player uid fn ln (gs i)).isSome) :
    ∃ s st', generate_and_persist count uid insert bs fr lr
      (some fn) (some ln) gs st = .ok (some (s, st')) ∧
      s.total_generated = count ∧
      s.total_inserted = (count : ℤ) ∧
      s.preview.length = min count 5 ∧
      (insert = false → ∃ l, s.inserted_ids = some l ∧
        l.length = count) := by
  have hall' := mem_range_map_isSome uid fn ln gs count hall
  unfold generate_and_persist
  rw [gap_with_injected]
  cases insert with
  | false =>
    rw [if_neg (by simp)]
    obtain ⟨s1, hs1⟩ := singleGo_isSome uid fn ln
      ((List.range count).map gs) 0 ⟨0, [], [], st⟩ hall'
    obtain ⟨ht, hil, hpl⟩ := singleGo_result uid fn ln
      ((List.range count).map gs) 0 ⟨0, [], [], st⟩ s1 hs1
    rw [hs1]
    refine ⟨_, s1.store, rfl, rfl, ?_, ?_, ?_⟩
    · rw [ht]
      simp
    · have := hpl (by simp)
      simpa using this
    · intro _
      refine ⟨s1.inserted_ids, rfl, ?_⟩
      rw [hil]
      simp
  | true =>
    rw [if_pos rfl]
    obtain ⟨s1, hs1⟩ := bulkGo_isSome bulk_insert_players uid fn ln bs
      ((List.range count).map gs) 0 ⟨[], 0, [], [], st⟩ hall'
    obtain ⟨ht, -, hpl, -⟩ := bulkGo_count_result uid fn ln bs
      ((List.range count).map gs) 0 ⟨[], 0, [], [], st⟩ s1 hs1
    rw [hs1]
    refine ⟨_, s1.store, rfl, rfl, ?_, ?_, ?_⟩
    · rw [ht]
      simp
    · have := hpl (by simp)
      simpa using this
    · intro hcontra
      exact absurd hcontra (by simp)

/-- Witness for C4: three records in single mode from a constant stream
of draws; the per-record success hypothesis is discharged by `rfl`. -/
theorem generate_and_persist_totals_witness :
    ∃ s st', generate_and_persist 3 1 false 100 [] []
      (some ["A"]) (some ["B"]) (fun _ => wDraws) ⟨7, []⟩ =
      .ok (some (s, st')) ∧
      s.total_generated = 3 ∧
      s.total_inserted = (3 : ℤ) ∧
      s.preview.length = min 3 5 ∧
      (false = false → ∃ l, s.inserted_ids = some l ∧ l.length = 3) :=
  generate_and_persist_totals 3 1 false 100 [] [] ["A"] ["B"]
    (fun _ => wDraws) ⟨7, []⟩ (fun _ => by rw [wRecord_eq]; rfl)

/-- C6: `bulk_insert_players` always returns the row count
`len(players)` (never an identity list); consequently, in every
bulk-mode summary of `generate_and_persist` every preview entry carries
a null (`None`) `player_id` and no `inserted_ids` field is present. -/
theorem bulk_insert_returns_count_and_null_previews :
    (∀ (st : Store) (players : List PlayerRecord),
      (bulk_insert_players st players).1 = .count players.length) ∧
    (∀ (count : Nat) (uid : ℤ) (bs : Nat) (fr lr fn ln : List String)
      (gs : Nat → GenDraws) (st : Store) (s : Summary) (st' : Store),
      generate_and_persist count uid true bs fr lr
        (some fn) (some ln) gs st = .ok (some (s, st')) →
      (∀ e ∈ s.preview, e.2 = none) ∧ s.inserted_ids = none) := by
  constructor
  · intro st players
    unfold bulk_insert_players
    by_cases hb : players.isEmpty
    · rw [if_pos hb]
      have : players.length = 0 := by
        rw [List.isEmpty_iff] at hb
        simp [hb]
      simp [this]
    · rw [if_neg hb]
  · intro count uid bs fr lr fn ln gs st s st' h
    rw [generate_and_persist, gap_with_injected, if_pos rfl] at h
    cases hbg : bulkGo bulk_insert_players uid fn ln bs
        ((List.range count).map gs) 0 ⟨[], 0, [], [], st⟩ with
    | none =>
      rw [hbg] at h
      exact absurd h (by simp)
    | some s1 =>
      rw [hbg] at h
      obtain ⟨-, hids, -, hnone⟩ := bulkGo_count_result uid fn ln bs
        ((List.range count).map gs) 0 ⟨[], 0, [], [], st⟩ s1 hbg
      have h' : Except.ok (ε := String) (some (
          ({ total_generated := count,
             total_inserted := s1.total_inserted,
             preview := s1.preview,
             inserted_ids := if s1.inserted_ids.isEmpty then none
               else some s1.inserted_ids,
             mode := "bulk_insert" } : Summary), s1.store)) =
          Except.ok (some (s, st')) := h
      simp only [Except.ok.injEq, Option.some.injEq, Prod.mk.injEq] at h'
      obtain ⟨hs, -⟩ := h'
      subst hs
      refine ⟨?_, ?_⟩
      · exact hnone (by intro e he; exact absurd he (by simp))
      · have hnil : s1.inserted_ids = [] := hids
        show (if s1.inserted_ids.isEmpty then none
          else some s1.inserted_ids) = none
        rw [hnil]
        rfl

/-- Witness for C6's conditional part: the bulk run of five records with
batch size 2 from a constant stream; all preview identities are null and
the summary has no `inserted_ids`. -/
theorem bulk_insert_returns_count_witness :
    (bulk_insert_players ⟨7, []⟩ [wRecord]).1 = .count 1 ∧
    ((∀ e ∈ (Summary.mk 5 5
        [(wRecord, none), (wRecord, none), (wRecord, none),
          (wRecord, none), (wRecord, none)] none "bulk_insert").preview,
        e.2 = none) ∧
      (Summary.mk 5 5
        [(wRecord, none), (wRecord, none), (wRecord, none),
          (wRecord, none), (wRecord, none)] none "bulk_insert").inserted_ids
        = none) :=
  ⟨bulk_insert_returns_count_and_null_previews.1 ⟨7, []⟩ [wRecord],
    bulk_insert_returns_count_and_null_previews.2 5 1 2 [] [] ["A"] ["B"]
      (fun _ => wDraws) ⟨7, []⟩ _ _ rfl⟩

/-- Counterexample to C9 as stated: a single-mode call returns the mode
string `"single_insert"`, not the requested mode string `"single"` (the
source's docstring itself documents `"single_insert" | "bulk_insert"`). -/
theorem summary_mode_counterexample :
    generate_and_persist 0 1 false 100 [] [] (some ["A"]) (some ["B"])
      (fun _ => wDraws) ⟨1, []⟩ =
      .ok (some (
        { total_generated := 0, total_inserted := 0, preview := [],
          inserted_ids := some [], mode := "single_insert" },
        ⟨1, []⟩)) ∧
    "single_insert" ≠ "single" :=
  ⟨rfl, by decide⟩

/-- C9 amended: the returned summary's `mode` is determined by the
requested mode, but spelled `"single_insert"` for single mode and
`"bulk_insert"` for bulk mode. -/
theorem summary_mode_matches_flag (count : Nat) (uid : ℤ) (insert : Bool)
    (bs : Nat) (fr lr : List String)
    (fn? ln? : Option (List String)) (gs : Nat → GenDraws) (st : Store)
    (s : Summary) (st' : Store)
    (h : generate_and_persist count uid insert bs fr lr fn? ln? gs st =
      .ok (some (s, st'))) :
    s.mode = if insert then "bulk_insert" else "single_insert" := by
  unfold generate_and_persist generate_and_persist_with at h
  cases hpl : (if fn?.isNone || ln?.isNone then load_name_texts fr lr
      else .ok (fn?.getD [], ln?.getD [])) with
  | error e =>
    rw [hpl] at h
    exact absurd h (by simp)
  | ok pools =>
    rw [hpl] at h
    replace h : (if insert then
        (match bulkGo bulk_insert_players uid pools.1 pools.2 bs
          ((List.range count).map gs) 0 ⟨[], 0, [], [], st⟩ with
        | none => Except.ok (ε := String)
            (Option.none (α := Summary × Store))
        | some s1 => Except.ok (some (
            ({ total_generated := count,
               total_inserted := s1.total_inserted,
               preview := s1.preview,
               inserted_ids := if s1.inserted_ids.isEmpty then none
                 else some s1.inserted_ids,
               mode := "bulk_insert" } : Summary), s1.store)))
      else
        (match singleGo uid pools.1 pools.2
          ((List.range count).map gs) 0 ⟨0, [], [], st⟩ with
        | none => Except.ok (ε := String)
            (Option.none (α := Summary × Store))
        | some s1 => Except.ok (some (
            ({ total_generated := count,
               total_inserted := s1.total_inserted,
               preview := s1.preview,
               inserted_ids := some s1.inserted_ids,
               mode := "single_insert" } : Summary), s1.store)))) =
      Except.ok (some (s, st')) := h
    cases insert with
    | true =>
      rw [if_pos rfl] at h
      cases hbg : bulkGo bulk_insert_players uid pools.1 pools.2 bs
          ((List.range count).map gs) 0 ⟨[], 0, [], [], st⟩ with
      | none =>
        rw [hbg] at h
        have h' : Except.ok (ε := String)
            (Option.none (α := Summary × Store)) =
            Except.ok (some (s, st')) := h
        exact absurd h' (by simp)
      | some s1 =>
        rw [hbg] at h
        have h' : Except.ok (ε := String) (some (
            ({ total_generated := count,
               total_inserted := s1.total_inserted,
               preview := s1.preview,
               inserted_ids := if s1.inserted_ids.isEmpty then none
                 else some s1.inserted_ids,
               mode := "bulk_insert" } : Summary), s1.store)) =
            Except.ok (some (s, st')) := h
        simp only [Except.ok.injEq, Option.some.injEq, Prod.mk.injEq] at h'
        obtain ⟨hs, -⟩ := h'
        subst hs
        rfl
    | false =>
      rw [if_neg (by simp)] at h
      cases hsg : singleGo uid pools.1 pools.2
          ((List.range count).map gs) 0 ⟨0, [], [], st⟩ with
      | none =>
        rw [hsg] at h
        have h' : Except.ok (ε := String)
            (Option.none (α := Summary × Store)) =
            Except.ok (some (s, st')) := h
        exact absurd h' (by simp)
      | some s1 =>
        rw [hsg] at h
        have h' : Except.ok (ε := String) (some (
            ({ total_generated := count,
               total_inserted := s1.total_inserted,
               preview := s1.preview,
               inserted_ids := some s1.inserted_ids,
               mode := "single_insert" } : Summary), s1.store)) =
            Except.ok (some (s, st')) := h
        simp only [Except.ok.injEq, Option.some.injEq, Prod.mk.injEq] at h'
        obtain ⟨hs, -⟩ := h'
        subst hs
        rfl

/-- Witness for the amended C9: a concrete bulk-mode run whose summary's
mode is `"bulk_insert"`. -/
theorem summary_mode_matches_flag_witness :
    (Summary.mk 0 0 [] none "bulk_insert").mode =
      if true then "bulk_insert" else "single_insert" :=
  summary_mode_matches_flag 0 1 true 100 [] [] (some ["A"]) (some ["B"])
    (fun _ => wDraws) ⟨1, []⟩ (Summary.mk 0 0 [] none "bulk_insert")
    ⟨1, []⟩ rfl

/-- Empty filtered name pools make `load_name_texts` raise. -/
lemma load_name_texts_error (fr lr : List String)
    (h : (fr.filter (fun s => s ≠ "")).isEmpty ∨
      (lr.filter (fun s => s ≠ "")).isEmpty) :
    ∃ msg, load_name_texts fr lr = .error msg := by
  unfold load_name_texts
  by_cases h1 : (fr.filter (fun s => s ≠ "")).isEmpty
  · rw [if_pos h1]
    exact ⟨_, rfl⟩
  · rw [if_neg h1]
    have h2 : (lr.filter (fun s => s ≠ "")).isEmpty := by tauto
    rw [if_pos h2]
    exact ⟨_, rfl⟩

/-- C10: when a name pool is not injected (so `load_name_texts` runs)
and either loaded list is empty after the truthiness filter, the call
raises the configuration error; the raise happens in the pool-loading
step, structurally before the generation loop, so no record is ever
generated or persisted (the result carries no summary and no store). -/
theorem empty_name_pool_raises_before_generation (count : Nat) (uid : ℤ)
    (insert : Bool) (bs : Nat) (fr lr : List String)
    (fn? ln? : Option (List String)) (gs : Nat → GenDraws) (st : Store)
    (hload : fn? = none ∨ ln? = none)
    (hempty : (fr.filter (fun s => s ≠ "")).isEmpty ∨
      (lr.filter (fun s => s ≠ "")).isEmpty) :
    (∃ msg, generate_and_persist count uid insert bs fr lr fn? ln? gs st =
      .error msg) ∧
    (∀ s st', generate_and_persist count uid insert bs fr lr fn? ln? gs st ≠
      .ok (some (s, st'))) := by
  obtain ⟨msg, hmsg⟩ := load_name_texts_error fr lr hempty
  have hcond : (fn?.isNone || ln?.isNone) = true := by
    rcases hload with h | h <;> subst h <;> simp
  have hres : generate_and_persist count uid insert bs fr lr fn? ln? gs st =
      .error msg := by
    unfold generate_and_persist generate_and_persist_with
    rw [hcond]
    rw [if_pos rfl, hmsg]
  refine ⟨⟨msg, hres⟩, ?_⟩
  intro s st'
  rw [hres]
  simp

/-- Witness for C10: a concrete call with an empty last-name table and no
injected pools errors out and yields no summary. -/
theorem empty_name_pool_raises_witness :
    (∃ msg, generate_and_persist 3 1 false 100 ["x"] [] none none
      (fun _ => wDraws) ⟨1, []⟩ = .error msg) ∧
    (∀ s st', generate_and_persist 3 1 false 100 ["x"] [] none none
      (fun _ => wDraws) ⟨1, []⟩ ≠ .ok (some (s, st'))) :=
  empty_name_pool_raises_before_generation 3 1 false 100 ["x"] [] none none
    (fun _ => wDraws) ⟨1, []⟩ (Or.inr rfl) (Or.inr (by decide))

set_option maxHeartbeats 3200000 in
/-- C5: a bulk-mode call with count `5` and batch size `2`.  With the
repository's own `bulk_insert_players` (row-count store) the summary has
`total_generated = 5`, `total_inserted = 5`, the preview holds exactly
the first five records in generation order, and every preview identity
stays null.  With the spec's identity-returning `insertMany`
(`insertManyReturningIds`), the same reconciliation code assigns each
flush's identities to the earliest still-unassigned preview slots, so the
five preview identities are the five store identities in generation
order. -/
theorem bulk_count5_batch2_preview (uid : ℤ) (fn ln : List String)
    (gs : Nat → GenDraws) (st : Store) (ps : Nat → PlayerRecord)
    (hall : ∀ i, generate_player uid fn ln (gs i) = some (ps i)) :
    (∃ s st', generate_and_persist 5 uid true 2 [] []
        (some fn) (some ln) gs st = .ok (some (s, st')) ∧
      s.total_generated = 5 ∧ s.total_inserted = 5 ∧
      s.preview.map Prod.fst = [ps 0, ps 1, ps 2, ps 3, ps 4] ∧
      s.preview.map Prod.snd = [none, none, none, none, none]) ∧
    (∃ s st', generate_and_persist_with insertManyReturningIds 5 uid true 2
        [] [] (some fn) (some ln) gs st = .ok (some (s, st')) ∧
      s.total_generated = 5 ∧ s.total_inserted = 5 ∧
      s.preview.map Prod.fst = [ps 0, ps 1, ps 2, ps 3, ps 4] ∧
      s.preview.map Prod.snd = [some st.nextId, some (st.nextId + 1),
        some (st.nextId + 2), some (st.nextId + 3),
        some (st.nextId + 4)] ∧
      s.inserted_ids = some [st.nextId, st.nextId + 1, st.nextId + 2,
        st.nextId + 3, st.nextId + 4]) := by
  have hds : (List.range 5).map gs = [gs 0, gs 1, gs 2, gs 3, gs 4] := rfl
  constructor
  · -- repository store: affected-row counts only
    have hrun : bulkGo bulk_insert_players uid fn ln 2
        [gs 0, gs 1, gs 2, gs 3, gs 4] 0 ⟨[], 0, [], [], st⟩ =
        some ⟨[], 5,
          [(ps 0, none), (ps 1, none), (ps 2, none), (ps 3, none),
            (ps 4, none)], [],
          ⟨st.nextId + 2 + 2 + 1,
            st.rows ++ [ps 0, ps 1] ++ [ps 2, ps 3] ++ [ps 4]⟩⟩ := by
      rw [bulkGo_cons_some bulk_insert_players uid fn ln 2 (gs 0)
          [gs 1, gs 2, gs 3, gs 4] 0 _ (ps 0) (hall 0),
        bulkGo_cons_some bulk_insert_players uid fn ln 2 (gs 1)
          [gs 2, gs 3, gs 4] 1 _ (ps 1) (hall 1),
        bulkGo_cons_some bulk_insert_players uid fn ln 2 (gs 2)
          [gs 3, gs 4] 2 _ (ps 2) (hall 2),
        bulkGo_cons_some bulk_insert_players uid fn ln 2 (gs 3)
          [gs 4] 3 _ (ps 3) (hall 3),
        bulkGo_cons_some bulk_insert_players uid fn ln 2 (gs 4)
          [] 4 _ (ps 4) (hall 4),
        bulkGo_nil]
      rfl
    rw [generate_and_persist, gap_with_injected, if_pos rfl, hds, hrun]
    exact ⟨_, _, rfl, rfl, rfl, rfl, rfl⟩
  · -- spec-modelled store: identity lists per flush
    have hrun : bulkGo insertManyReturningIds uid fn ln 2
        [gs 0, gs 1, gs 2, gs 3, gs 4] 0 ⟨[], 0, [], [], st⟩ =
        some ⟨[], 5,
          [(ps 0, some (st.nextId + 0)), (ps 1, some (st.nextId + 1)),
            (ps 2, some (st.nextId + 2 + 0)),
            (ps 3, some (st.nextId + 2 + 1)),
            (ps 4, some (st.nextId + 2 + 2 + 0))],
          [st.nextId + 0, st.nextId + 1, st.nextId + 2 + 0,
            st.nextId + 2 + 1, st.nextId + 2 + 2 + 0],
          ⟨st.nextId + 2 + 2 + 1,
            st.rows ++ [ps 0, ps 1] ++ [ps 2, ps 3] ++ [ps 4]⟩⟩ := by
      rw [bulkGo_cons_some insertManyReturningIds uid fn ln 2 (gs 0)
          [gs 1, gs 2, gs 3, gs 4] 0 _ (ps 0) (hall 0),
        bulkGo_cons_some insertManyReturningIds uid fn ln 2 (gs 1)
          [gs 2, gs 3, gs 4] 1 _ (ps 1) (hall 1),
        bulkGo_cons_some insertManyReturningIds uid fn ln 2 (gs 2)
          [gs 3, gs 4] 2 _ (ps 2) (hall 2),
        bulkGo_cons_some insertManyReturningIds uid fn ln 2 (gs 3)
          [gs 4] 3 _ (ps 3) (hall 3),
        bulkGo_cons_some insertManyReturningIds uid fn ln 2 (gs 4)
          [] 4 _ (ps 4) (hall 4),
        bulkGo_nil]
      rfl
    rw [gap_with_injected, if_pos rfl, hds, hrun]
    refine ⟨_, _, rfl, rfl, rfl, rfl, ?_, ?_⟩
    · show [some (st.nextId + 0), some (st.nextId + 1),
        some (st.nextId + 2 + 0), some (st.nextId + 2 + 1),
        some (st.nextId + 2 + 2 + 0)] =
        [some st.nextId, some (st.nextId + 1), some (st.nextId + 2),
          some (st.nextId + 3), some (st.nextId + 4)]
      norm_num
      constructor <;> ring
    · show some [st.nextId + 0, st.nextId + 1, st.nextId + 2 + 0,
        st.nextId + 2 + 1, st.nextId + 2 + 2 + 0] =
        some [st.nextId, st.nextId + 1, st.nextId + 2, st.nextId + 3,
          st.nextId + 4]
      norm_num
      constructor <;> ring

/-- Witness for C5: the concrete constant stream producing `wRecord`
five times, from a store whose next identity is `7`; the per-record
success hypothesis is discharged by `rfl`. -/
theorem bulk_count5_batch2_preview_witness :
    (∃ s st', generate_and_persist 5 1 true 2 [] []
        (some ["A"]) (some ["B"]) (fun _ => wDraws) ⟨7, []⟩ =
        .ok (some (s, st')) ∧
      s.total_generated = 5 ∧ s.total_inserted = 5 ∧
      s.preview.map Prod.fst = [wRecord, wRecord, wRecord, wRecord,
        wRecord] ∧
      s.preview.map Prod.snd = [none, none, none, none, none]) ∧
    (∃ s st', generate_and_persist_with insertManyReturningIds 5 1 true 2
        [] [] (some ["A"]) (some ["B"]) (fun _ => wDraws) ⟨7, []⟩ =
        .ok (some (s, st')) ∧
      s.total_generated = 5 ∧ s.total_inserted = 5 ∧
      s.preview.map Prod.fst = [wRecord, wRecord, wRecord, wRecord,
        wRecord] ∧
      s.preview.map Prod.snd = [some (Store.mk 7 []).nextId,
        some ((Store.mk 7 []).nextId + 1),
        some ((Store.mk 7 []).nextId + 2),
        some ((Store.mk 7 []).nextId + 3),
        some ((Store.mk 7 []).nextId + 4)] ∧
      s.inserted_ids = some [(Store.mk 7 []).nextId,
        (Store.mk 7 []).nextId + 1, (Store.mk 7 []).nextId + 2,
        (Store.mk 7 []).nextId + 3, (Store.mk 7 []).nextId + 4]) :=
  bulk_count5_batch2_preview 1 ["A"] ["B"] (fun _ => wDraws) ⟨7, []⟩
    (fun _ => wRecord) (fun _ => wRecord_eq)
